import Mathlib

/-!
Verification of the profitability and arbitrage engine of the
ALBION-MARKET-GOD repository.  The Python source is embedded shallowly:
prices and rates become rationals, dictionaries become association lists
with lookup-with-default, and code paths that raise become Option/Except
failures.  Definitions follow the source files
src/refining_calculator.py, src/crafting_calculator.py,
src/arbitrage_analyzer.py and src/config.py.
-/

/-- Python int(x): truncation of a rational toward zero. -/
def pyInt (q : ℚ) : ℤ := if 0 ≤ q then ⌊q⌋ else -⌊-q⌋

namespace Refining

/-- REFINING_DATA base_refining_bonus (0.18). -/
def base_refining_bonus : ℚ := 18/100

/-- REFINING_DATA focus_bonus (0.45). -/
def focus_bonus : ℚ := 45/100

/-- REFINING_DATA premium_bonus (0.50, focus-cost efficiency). -/
def premium_bonus : ℚ := 50/100

/-- REFINING_DATA nutrition_cost_multiplier (0.1125). -/
def nutrition_cost_multiplier : ℚ := 1125/10000

/-- REFINING_DATA tax_rates. -/
def tax_rates : List (String × ℚ) :=
  [("Thetford", 45/1000), ("Fort Sterling", 45/1000), ("Lymhurst", 45/1000),
   ("Bridgewatch", 45/1000), ("Martlock", 45/1000), ("Caerleon", 35/1000),
   ("Brecilien", 20/1000)]

/-- REFINING_DATA base_focus_cost. -/
def base_focus_cost : List (String × ℚ) :=
  [("T4", 10), ("T5", 20), ("T6", 40), ("T7", 80), ("T8", 160)]

/-- REFINING_DATA resource_requirements: raw units and previous-tier refined
units needed per refined output unit. -/
def resource_requirements : List (String × (ℕ × ℕ)) :=
  [("T4", (2, 1)), ("T5", (3, 1)), ("T6", (4, 1)), ("T7", (5, 1)), ("T8", (6, 1))]

/-- REFINING_DATA resource_type_mapping (STONE is mapped to ROCK). -/
def resource_type_mapping : List (String × String) :=
  [("ORE", "ORE"), ("WOOD", "WOOD"), ("HIDE", "HIDE"), ("FIBER", "FIBER"),
   ("STONE", "ROCK"), ("ROCK", "ROCK")]

/-- REFINING_DATA item_values (used for tax calculation). -/
def item_values : List (String × ℚ) :=
  [("T2_RAW", 2), ("T3_RAW", 4), ("T4_RAW", 8), ("T5_RAW", 16), ("T6_RAW", 32),
   ("T7_RAW", 64), ("T8_RAW", 128), ("T2_REFINED", 8), ("T3_REFINED", 24),
   ("T4_REFINED", 72), ("T5_REFINED", 192), ("T6_REFINED", 480),
   ("T7_REFINED", 1152), ("T8_REFINED", 2688)]

/-- REFINING_DATA local_production_bonus: per city, per resource type.
Note that this table carries both STONE and ROCK keys (0.40 each in
Bridgewatch). -/
def local_production_bonus : List (String × List (String × ℚ)) :=
  [("Fort Sterling",
    [("ORE", 0), ("WOOD", 40/100), ("HIDE", 0), ("FIBER", 0), ("STONE", 0), ("ROCK", 0)]),
   ("Lymhurst",
    [("ORE", 0), ("WOOD", 0), ("HIDE", 0), ("FIBER", 40/100), ("STONE", 0), ("ROCK", 0)]),
   ("Bridgewatch",
    [("ORE", 0), ("WOOD", 0), ("HIDE", 0), ("FIBER", 0), ("STONE", 40/100), ("ROCK", 40/100)]),
   ("Martlock",
    [("ORE", 0), ("WOOD", 0), ("HIDE", 40/100), ("FIBER", 0), ("STONE", 0), ("ROCK", 0)]),
   ("Thetford",
    [("ORE", 40/100), ("WOOD", 0), ("HIDE", 0), ("FIBER", 0), ("STONE", 0), ("ROCK", 0)]),
   ("Caerleon",
    [("ORE", 0), ("WOOD", 0), ("HIDE", 0), ("FIBER", 0), ("STONE", 0), ("ROCK", 0)]),
   ("Brecilien",
    [("ORE", 0), ("WOOD", 0), ("HIDE", 0), ("FIBER", 0), ("STONE", 0), ("ROCK", 0)])]

/-- RefiningCalculator.normalize_resource_type: convert a resource type to
the API format through resource_type_mapping, defaulting to the input. -/
def normalize_resource_type (resource_type : String) : String :=
  (resource_type_mapping.lookup resource_type).getD resource_type

/-- The hard-coded city-bonus table inside
RefiningCalculator.get_local_production_bonus.  It only carries ROCK keys,
no STONE keys. -/
def glpb_city_bonuses : List (String × List (String × ℚ)) :=
  [("Fort Sterling", [("WOOD", 40/100)]),
   ("Lymhurst", [("FIBER", 40/100)]),
   ("Bridgewatch", [("ROCK", 40/100)]),
   ("Martlock", [("HIDE", 40/100)]),
   ("Thetford", [("ORE", 40/100)]),
   ("Caerleon", []),
   ("Brecilien", [])]

/-- RefiningCalculator.get_local_production_bonus: nested dict lookup with
default 0.0; no normalization of the resource type is performed. -/
def get_local_production_bonus (city resource_type : String) : ℚ :=
  (((glpb_city_bonuses.lookup city).getD []).lookup resource_type).getD 0

/-- RefiningCalculator.calculate_return_rate: accumulate a total bonus and
convert through RRR = 1 - 1/(1 + total bonus). -/
def calculate_return_rate (city resource_type : String)
    (use_focus personal_island : Bool) : ℚ :=
  let b1 : ℚ := base_refining_bonus
  let b2 : ℚ := if personal_island then b1 else b1 + get_local_production_bonus city resource_type
  let total : ℚ := if use_focus then b2 + focus_bonus else b2
  1 - 1 / (1 + total)

/-- RefiningCalculator.calculate_focus_cost: base cost for the tier
(default 10) times quantity, reduced by specialization (factor 0.5) and by
premium (factor 0.5), truncated to int and floored at 1. -/
def calculate_focus_cost (tier : String) (quantity : ℕ) (specialization : ℤ)
    (premium : Bool) : ℤ :=
  let base_cost : ℚ := (base_focus_cost.lookup tier).getD 10
  let spec_reduction : ℚ := 1 - ((specialization : ℚ) / 100 * (5/10))
  let premium_reduction : ℚ := if premium then 1 - premium_bonus else 1
  max 1 (pyInt (base_cost * (quantity : ℚ) * spec_reduction * premium_reduction))

/-- Result record of RefiningCalculator.calculate_refining_profit. -/
structure RefiningResult where
  total_cost : ℚ
  total_revenue : ℚ
  net_profit : ℚ
  profit_margin : ℚ
  focus_cost : ℤ
  tax_cost : ℚ
  return_rate : ℚ
  resources_returned : ℤ
  refined_quantity : ℕ
  prev_refined_needed : ℕ
  raw_material_cost : ℚ
  prev_refined_material_cost : ℚ
  output_value : ℚ
  input_cost : ℚ
  premium : Bool
  use_focus : Bool
  deriving Repr, DecidableEq

/-- RefiningCalculator.calculate_refining_profit.  The degenerate branch
(refined quantity 0) builds a RefiningResult with two required fields
missing, which raises a TypeError in Python; it is embedded as none. -/
def calculate_refining_profit (tier resource_type city : String)
    (raw_price refined_price : ℚ) (quantity : ℕ) (specialization : ℤ)
    (premium use_focus : Bool) (prev_refined_price : ℚ) :
    Option RefiningResult :=
  let requirements := (resource_requirements.lookup tier).getD (2, 1)
  let raw_per_refined := requirements.1
  let prev_per_refined := requirements.2
  let refined_quantity := quantity / raw_per_refined
  if refined_quantity = 0 then none
  else
    let prev_refined_needed := refined_quantity * prev_per_refined
    let raw_material_cost := (quantity : ℚ) * raw_price
    let prev_refined_material_cost := (prev_refined_needed : ℚ) * prev_refined_price
    let input_cost := raw_material_cost + prev_refined_material_cost
    let return_rate := calculate_return_rate city resource_type use_focus false
    let focus_cost := if use_focus then calculate_focus_cost tier refined_quantity specialization premium else 0
    let tax_rate := (tax_rates.lookup city).getD (5/100)
    let item_value := (item_values.lookup (tier ++ "_REFINED")).getD 0
    let tax_cost := (refined_quantity : ℚ) * item_value * nutrition_cost_multiplier * tax_rate
    let total_cost := input_cost + tax_cost
    let base_revenue := (refined_quantity : ℚ) * refined_price
    let resources_returned_value :=
      (quantity : ℚ) * return_rate * raw_price + (prev_refined_needed : ℚ) * return_rate * prev_refined_price
    let total_revenue := base_revenue + resources_returned_value
    let net_profit := total_revenue - total_cost
    let profit_margin := if 0 < total_cost then net_profit / total_cost * 100 else 0
    some {
    total_cost := total_cost
    total_revenue := total_revenue
    net_profit := net_profit
    profit_margin := profit_margin
    focus_cost := focus_cost
    tax_cost := tax_cost
    return_rate := return_rate
    resources_returned := pyInt ((quantity : ℚ) * return_rate)
    refined_quantity := refined_quantity
    prev_refined_needed := prev_refined_needed
    raw_material_cost := raw_material_cost
    prev_refined_material_cost := prev_refined_material_cost
    output_value := total_revenue
    input_cost := input_cost
    premium := premium
    use_focus := use_focus }

/-- Net profit of an optional refining result; the none case corresponds to
a Python TypeError crash path that downstream callers never reach at their
fixed quantity of 100. -/
def netProfitOf (r : Option RefiningResult) : ℚ := (r.map RefiningResult.net_profit).getD 0

/-- Profit margin of an optional refining result. -/
def marginOf (r : Option RefiningResult) : ℚ := (r.map RefiningResult.profit_margin).getD 0

/-- Loop body of RefiningCalculator.get_optimal_refining_city: keep the
first city with the strictly largest bonus for the resource type. -/
def optimalCityFold (resource_type : String) :
    List (String × List (String × ℚ)) → Option String → ℚ → Option String
  | [], best, _ => best
  | (city, bonuses) :: rest, best, max_bonus =>
    let b := (bonuses.lookup resource_type).getD 0
    if max_bonus < b then optimalCityFold resource_type rest (some city) b
    else optimalCityFold resource_type rest best max_bonus

/-- RefiningCalculator.get_optimal_refining_city, defaulting to Caerleon
when no city has a positive bonus. -/
def get_optimal_refining_city (resource_type : String) : String :=
  (optimalCityFold resource_type local_production_bonus none 0).getD "Caerleon"

/-- One entry of the RefiningCalculator.find_best_refining_city ranking. -/
structure CityRank where
  profit : ℚ
  margin : ℚ
  return_rate : ℚ
  tax_rate : ℚ
  lpb : ℚ
  full_result : Option RefiningResult
  deriving Repr

/-- Stable descending insertion by profit (Python sorted with reverse=True
is stable; an element inserted from the left goes before equal keys). -/
def insertByProfitDesc (x : String × CityRank) :
    List (String × CityRank) → List (String × CityRank)
  | [] => [x]
  | y :: ys => if y.2.profit ≤ x.2.profit then x :: y :: ys else y :: insertByProfitDesc x ys

/-- Stable descending sort by profit. -/
def sortByProfitDesc : List (String × CityRank) → List (String × CityRank)
  | [] => []
  | x :: xs => insertByProfitDesc x (sortByProfitDesc xs)

/-- RefiningCalculator.find_best_refining_city: evaluate the profit of a
100-unit batch in every city of the reference table and sort by profit
descending.  No city-exclusion filtering happens here. -/
def find_best_refining_city (tier resource_type : String)
    (raw_price refined_price : ℚ) (specialization : ℤ)
    (premium use_focus : Bool) (prev_refined_price : ℚ) :
    List (String × CityRank) :=
  let results := local_production_bonus.map (fun p =>
    let city := p.1
    let r := calculate_refining_profit tier resource_type city raw_price refined_price
      100 specialization premium use_focus prev_refined_price
    (city, {
      profit := netProfitOf r
      margin := marginOf r
      return_rate := ((r.map RefiningResult.return_rate).getD 0)
      tax_rate := (tax_rates.lookup city).getD (5/100)
      lpb := get_local_production_bonus city resource_type
      full_result := r }))
  sortByProfitDesc results

end Refining

namespace Crafting

/-- Crafting base_return_rate table (crafting_calculator.py). -/
def base_return_rate : List (String × ℚ) :=
  [("T4", 15/100), ("T5", 20/100), ("T6", 22/100), ("T7", 24/100), ("T8", 26/100)]

/-- Crafting focus_per_craft table. -/
def focus_per_craft : List (String × ℚ) :=
  [("T4", 10), ("T5", 20), ("T6", 40), ("T7", 80), ("T8", 160)]

/-- Crafting tax_rates table. -/
def tax_rates : List (String × ℚ) :=
  [("Caerleon", 35/1000), ("Thetford", 45/1000), ("Fort Sterling", 45/1000),
   ("Lymhurst", 45/1000), ("Bridgewatch", 45/1000), ("Martlock", 45/1000),
   ("Brecilien", 45/1000)]

/-- Crafting city_bonuses table (material-requirement reductions). -/
def city_bonuses : List (String × List (String × ℚ)) :=
  [("Thetford", [("FIBER", 15/100), ("CLOTH", 15/100)]),
   ("Fort Sterling", [("ORE", 15/100), ("METAL", 15/100)]),
   ("Lymhurst", [("WOOD", 15/100)]),
   ("Bridgewatch", [("HIDE", 15/100), ("LEATHER", 15/100)]),
   ("Martlock", [("ROCK", 15/100), ("STONE", 15/100)]),
   ("Caerleon", []),
   ("Brecilien", [])]

/-- One crafting recipe: named material quantities, a category, and the
material type its city bonus keys on. -/
structure Recipe where
  materials : List (String × ℕ)
  category : String
  crafting_city_bonus : String
  deriving Repr, DecidableEq

/-- Crafting recipes table. -/
def recipes : List (String × Recipe) :=
  [("T4_SWORD", ⟨[("T4_METAL", 16), ("T3_METAL", 8)], "WEAPON", "METAL"⟩),
   ("T5_SWORD", ⟨[("T5_METAL", 16), ("T4_METAL", 8)], "WEAPON", "METAL"⟩),
   ("T6_SWORD", ⟨[("T6_METAL", 16), ("T5_METAL", 8)], "WEAPON", "METAL"⟩),
   ("T7_SWORD", ⟨[("T7_METAL", 16), ("T6_METAL", 8)], "WEAPON", "METAL"⟩),
   ("T8_SWORD", ⟨[("T8_METAL", 16), ("T7_METAL", 8)], "WEAPON", "METAL"⟩),
   ("T4_ARMOR_CLOTH_ROBE", ⟨[("T4_CLOTH", 16), ("T3_CLOTH", 8)], "ARMOR", "CLOTH"⟩),
   ("T5_ARMOR_CLOTH_ROBE", ⟨[("T5_CLOTH", 16), ("T4_CLOTH", 8)], "ARMOR", "CLOTH"⟩),
   ("T6_ARMOR_CLOTH_ROBE", ⟨[("T6_CLOTH", 16), ("T5_CLOTH", 8)], "ARMOR", "CLOTH"⟩),
   ("T4_BAG", ⟨[("T4_CLOTH", 8), ("T4_LEATHER", 4)], "ACCESSORY", "CLOTH"⟩),
   ("T5_BAG", ⟨[("T5_CLOTH", 8), ("T5_LEATHER", 4)], "ACCESSORY", "CLOTH"⟩),
   ("T6_BAG", ⟨[("T6_CLOTH", 8), ("T6_LEATHER", 4)], "ACCESSORY", "CLOTH"⟩)]

/-- CraftingCalculator.calculate_return_rate: base rate for the tier
(default 0.15) plus specialization bonus plus flat focus bonus, capped at
0.70.  Premium is accepted and ignored. -/
def calculate_return_rate (tier : String) (specialization : ℤ)
    (premium use_focus : Bool) : ℚ :=
  let base_rate : ℚ := (base_return_rate.lookup tier).getD (15/100)
  let spec_bonus : ℚ := ((specialization : ℚ) / 100) * (30/100)
  let rate : ℚ := if use_focus then base_rate + spec_bonus + 35/100 else base_rate + spec_bonus
  min rate (70/100)

/-- CraftingCalculator.calculate_focus_cost: per-craft cost; 0 without
focus, otherwise base cost for the tier (default 10) reduced by
specialization, truncated and floored at 1.  Premium is accepted and never
used. -/
def calculate_focus_cost (tier : String) (specialization : ℤ)
    (premium use_focus : Bool) : ℤ :=
  if use_focus = false then 0
  else
    let base_focus : ℚ := (focus_per_craft.lookup tier).getD 10
    let spec_reduction : ℚ := ((specialization : ℚ) / 100) * (50/100)
    let focus_cost : ℚ := base_focus * (1 - spec_reduction)
    max (pyInt focus_cost) 1

/-- Python item_id.split with an underscore, first component: the tier
prefix of a recipe id. -/
def tierOf (item_id : String) : String :=
  (item_id.toList.takeWhile (fun c => c ≠ '_')).asString

/-- Result record of CraftingCalculator.calculate_crafting_profit. -/
structure CraftingResult where
  net_profit : ℚ
  gross_profit : ℚ
  total_cost : ℚ
  total_revenue : ℚ
  profit_margin : ℚ
  return_rate : ℚ
  focus_cost : ℤ
  tax_amount : ℚ
  material_costs : List (String × ℚ)
  items_produced : ℚ
  break_even_price : ℚ
  deriving Repr, DecidableEq

/-- CraftingCalculator.calculate_crafting_profit.  An unknown recipe id
raises ValueError in Python; embedded as an error value. -/
def calculate_crafting_profit (item_id city : String)
    (material_prices : List (String × ℚ)) (item_sell_price : ℚ)
    (quantity : ℕ) (specialization : ℤ) (premium use_focus : Bool) :
    Except String CraftingResult :=
  match recipes.lookup item_id with
  | none => .error ("Recipe not found for " ++ item_id)
  | some recipe =>
    let tier := tierOf item_id
    let return_rate := calculate_return_rate tier specialization premium use_focus
    let focus_cost := calculate_focus_cost tier specialization premium use_focus
    let city_bonus : ℚ :=
      match city_bonuses.lookup city with
      | none => 0
      | some bonuses => (bonuses.lookup recipe.crafting_city_bonus).getD 0
    let material_costs := recipe.materials.map (fun m =>
      let actual_amount := (m.2 : ℚ) * (1 - city_bonus) * (quantity : ℚ)
      let material_price := (material_prices.lookup m.1).getD 0
      (m.1, actual_amount * material_price))
    let total_material_cost := (material_costs.map Prod.snd).sum
    let items_produced := (quantity : ℚ) * (1 + return_rate)
    let total_revenue := items_produced * item_sell_price
    let tax_rate := (tax_rates.lookup city).getD (5/100)
    let tax_amount := total_revenue * tax_rate
    let gross_profit := total_revenue - total_material_cost
    let net_profit := gross_profit - tax_amount
    let total_cost := total_material_cost + tax_amount
    let profit_margin := if 0 < total_revenue then net_profit / total_revenue * 100 else 0
    let break_even_price := if 0 < items_produced then total_cost / items_produced else 0
    .ok {
    net_profit := net_profit
    gross_profit := gross_profit
    total_cost := total_cost
    total_revenue := total_revenue
    profit_margin := profit_margin
    return_rate := return_rate
    focus_cost := focus_cost * (quantity : ℤ)
    tax_amount := tax_amount
    material_costs := material_costs
    items_produced := items_produced
    break_even_price := break_even_price }

end Crafting

namespace Market

/-- AlbionConfig (src/config.py), restricted to the fields the arbitrage
and refining analyses read. -/
structure AlbionConfig where
  premium : Bool := false
  use_focus : Bool := true
  specializations : List (String × ℤ) :=
    [("ore_refining", 0), ("hide_refining", 0), ("fiber_refining", 0),
     ("wood_refining", 0), ("stone_refining", 0), ("weapon_smith", 0),
     ("armor_smith", 0), ("toolmaker", 0), ("artifact_founder", 0),
     ("cook", 0), ("alchemist", 0), ("scholar", 0), ("farmer", 0),
     ("hunter", 0), ("fisher", 0), ("lumberjack", 0), ("miner", 0),
     ("quarrier", 0)]
  tax_rates : List (String × ℚ) :=
    [("Thetford", 45/1000), ("Fort Sterling", 45/1000), ("Lymhurst", 45/1000),
     ("Bridgewatch", 45/1000), ("Martlock", 45/1000), ("Caerleon", 35/1000),
     ("Brecilien", 20/1000)]
  exclude_brecilien : Bool := false
  exclude_caerleon : Bool := false
  deriving Repr, DecidableEq

/-- AlbionConfig.get_allowed_cities: all tax-rate cities minus the
configured exclusions. -/
def AlbionConfig.get_allowed_cities (c : AlbionConfig) : List String :=
  (c.tax_rates.map Prod.fst).filter (fun city =>
    ¬(c.exclude_brecilien = true ∧ city = "Brecilien") ∧
    ¬(c.exclude_caerleon = true ∧ city = "Caerleon"))

/-- AlbionConfig.get_specialization_level with default 0. -/
def AlbionConfig.get_specialization_level (c : AlbionConfig) (activity : String) : ℤ :=
  (c.specializations.lookup activity).getD 0

/-- One market quote as supplied by the price source. -/
structure Quote where
  buy_max : ℚ
  sell_min : ℚ
  item_id : String
  deriving Repr, DecidableEq

/-- Per-city price data: optional quotes for the raw resource, the
previous-tier refined material and the refined output. -/
structure CityData where
  raw : Option Quote := none
  prev_refined : Option Quote := none
  refined : Option Quote := none
  deriving Repr, DecidableEq

/-- A per-city price entry as built inside
ArbitrageAnalyzer.analyze_opportunities. -/
structure PriceEntry where
  buy_price : ℚ
  sell_price : ℚ
  item_id : String
  deriving Repr, DecidableEq

/-- Buy/sell recommendation returned by
ArbitrageAnalyzer.find_best_buy_sell. -/
structure BuySellRec where
  item_type : String
  tier : String
  resource_type : String
  buy_city : Option String
  buy_price : ℚ
  sell_city : Option String
  sell_price : ℚ
  profit_per_unit : ℚ
  profit_margin_percent : ℚ
  is_profitable : Bool
  deriving Repr, DecidableEq

/-- The loop of find_best_buy_sell restricted to the best-buy state: the
running best is replaced when a strictly positive sell price is strictly
below the current one (none plays the role of the infinite sentinel). -/
def buyFold : List (String × PriceEntry) → Option (String × ℚ) → Option (String × ℚ)
  | [], bb => bb
  | (city, d) :: rest, bb =>
    let bb2 := if 0 < d.sell_price then
        match bb with
        | none => some (city, d.sell_price)
        | some (c0, p0) => if d.sell_price < p0 then some (city, d.sell_price) else some (c0, p0)
      else bb
    buyFold rest bb2

/-- The loop of find_best_buy_sell restricted to the best-sell state: the
running best (city option, price starting at 0) is replaced when a buy
price strictly exceeds it. -/
def sellFold : List (String × PriceEntry) → Option String × ℚ → Option String × ℚ
  | [], bs => bs
  | (city, d) :: rest, bs =>
    let bs2 := if bs.2 < d.buy_price then (some city, d.buy_price) else bs
    sellFold rest bs2

/-- ArbitrageAnalyzer.find_best_buy_sell: empty price data gives an empty
recommendation; otherwise one pass selects the best buy and sell cities,
then profit, margin and the profitability verdict are derived. -/
def find_best_buy_sell (prices : List (String × PriceEntry))
    (item_type tier resource_type : String) : Option BuySellRec :=
  if prices = [] then none
  else
    let bb := buyFold prices none
    let bs := sellFold prices (none, 0)
    let pm : ℚ × ℚ :=
      match bb with
      | some (_, bp) =>
        if 0 < bs.2 then
          let profit := bs.2 - bp
          (profit, if 0 < bp then profit / bp * 100 else 0)
        else (0, 0)
      | none => (0, 0)
    some {
    item_type := item_type
    tier := tier
    resource_type := resource_type
    buy_city := bb.map Prod.fst
    buy_price := (bb.map Prod.snd).getD 0
    sell_city := bs.1
    sell_price := bs.2
    profit_per_unit := pm.1
    profit_margin_percent := pm.2
    is_profitable := decide (0 < pm.1) && decide (5 < pm.2) }

/-- One entry of the refining-arbitrage opportunity list (the display
strategy string is presentation-only and not modelled). -/
structure RefArbOpp where
  raw_city : String
  refined_city : String
  refine_city : String
  raw_price : ℚ
  refined_price : ℚ
  estimated_profit : ℚ
  profit_margin : ℚ
  deriving Repr

/-- Python min over city names keyed by sell price when positive and
infinity otherwise: the first entry attaining the minimal key wins. -/
def minBySellKey : List (String × PriceEntry) → Option (String × PriceEntry) → Option (String × PriceEntry)
  | [], acc => acc
  | x :: rest, acc =>
    let acc2 := match acc with
      | none => some x
      | some y =>
        if 0 < x.2.sell_price ∧ (¬ 0 < y.2.sell_price ∨ x.2.sell_price < y.2.sell_price)
        then some x else some y
    minBySellKey rest acc2

/-- Stable descending insertion by estimated profit. -/
def insertOppDesc (x : RefArbOpp) : List RefArbOpp → List RefArbOpp
  | [] => [x]
  | y :: ys => if y.estimated_profit ≤ x.estimated_profit then x :: y :: ys
               else y :: insertOppDesc x ys

/-- Stable descending sort of opportunities by estimated profit. -/
def sortOppsDesc : List RefArbOpp → List RefArbOpp
  | [] => []
  | x :: xs => insertOppDesc x (sortOppsDesc xs)

/-- Core of ArbitrageAnalyzer.analyze_refining_arbitrage once the best raw
city and the previous-tier price are fixed: evaluate each refined-output
city with the calculator at a reference quantity of 100 and keep the
profitable ones, sorted by profit, top five plus a total count. -/
def refArbCore (cfg : AlbionConfig) (raw_city : String) (raw_buy_price : ℚ)
    (prev_refined_buy_price : ℚ) (refined : List (String × PriceEntry))
    (tier resource_type : String) : List RefArbOpp × ℕ :=
  let optimal := Refining.get_optimal_refining_city resource_type
  let spec := cfg.get_specialization_level (resource_type.toLower ++ "_refining")
  let opportunities := refined.filterMap (fun p =>
    let refined_sell_price := p.2.buy_price
    if 0 < raw_buy_price ∧ 0 < refined_sell_price then
      let r := Refining.calculate_refining_profit tier resource_type optimal
        raw_buy_price refined_sell_price 100 spec cfg.premium cfg.use_focus
        prev_refined_buy_price
      if 0 < Refining.netProfitOf r then
        some {
        raw_city := raw_city
        refined_city := p.1
        refine_city := optimal
        raw_price := raw_buy_price
        refined_price := refined_sell_price
        estimated_profit := Refining.netProfitOf r
        profit_margin := Refining.marginOf r }
      else none
    else none)
  ((sortOppsDesc opportunities).take 5, opportunities.length)

/-- ArbitrageAnalyzer.analyze_refining_arbitrage: empty result when the
calculator, the raw prices, the refined prices or the configuration are
missing; when previous-tier prices are missing entirely the analysis
continues with a zero cost for that leg. -/
def analyze_refining_arbitrage (has_calculator : Bool) (cfg : Option AlbionConfig)
    (raw_prices prev_refined_prices refined_prices : List (String × PriceEntry))
    (tier resource_type : String) : Option (List RefArbOpp × ℕ) :=
  if has_calculator = false ∨ raw_prices = [] ∨ refined_prices = [] ∨ cfg = none
  then none
  else
    match cfg, minBySellKey raw_prices none with
    | some cfg, some best_raw =>
      let raw_buy_price := best_raw.2.sell_price
      let prev_refined_buy_price : ℚ :=
        match minBySellKey prev_refined_prices none with
        | none => 0
        | some best_prev => best_prev.2.sell_price
      some (refArbCore cfg best_raw.1 raw_buy_price prev_refined_buy_price
        refined_prices tier resource_type)
    | _, _ => none

/-- Full result of ArbitrageAnalyzer.analyze_opportunities. -/
structure ArbAnalysis where
  raw_recommendations : Option BuySellRec
  prev_refined_recommendations : Option BuySellRec
  refined_recommendations : Option BuySellRec
  refining_opportunities : Option (List RefArbOpp × ℕ)

/-- Cities of the price data allowed by the optional configuration. -/
def filteredCities (cfg : Option AlbionConfig) (price_data : List (String × CityData)) :
    List String :=
  match cfg with
  | some c => (price_data.map Prod.fst).filter (fun city => city ∈ c.get_allowed_cities)
  | none => price_data.map Prod.fst

/-- Raw-resource price entries of the allowed cities whose buy price is
positive (ArbitrageAnalyzer.analyze_opportunities). -/
def rawPriceList (cfg : Option AlbionConfig) (price_data : List (String × CityData)) :
    List (String × PriceEntry) :=
  (filteredCities cfg price_data).filterMap (fun city =>
    match ((price_data.lookup city).getD {}).raw with
    | some q => if 0 < q.buy_max then some (city, ⟨q.buy_max, q.sell_min, q.item_id⟩) else none
    | none => none)

/-- Previous-tier refined price entries of the allowed cities whose buy
price is positive. -/
def prevPriceList (cfg : Option AlbionConfig) (price_data : List (String × CityData)) :
    List (String × PriceEntry) :=
  (filteredCities cfg price_data).filterMap (fun city =>
    match ((price_data.lookup city).getD {}).prev_refined with
    | some q => if 0 < q.buy_max then some (city, ⟨q.buy_max, q.sell_min, q.item_id⟩) else none
    | none => none)

/-- Refined-output price entries of the allowed cities whose sell price is
positive. -/
def refinedPriceList (cfg : Option AlbionConfig) (price_data : List (String × CityData)) :
    List (String × PriceEntry) :=
  (filteredCities cfg price_data).filterMap (fun city =>
    match ((price_data.lookup city).getD {}).refined with
    | some q => if 0 < q.sell_min then some (city, ⟨q.buy_max, q.sell_min, q.item_id⟩) else none
    | none => none)

/-- ArbitrageAnalyzer.analyze_opportunities: filter cities through the
configured exclusions, build the three per-category price dictionaries and
analyze each independently. -/
def analyze_opportunities (has_calculator : Bool) (cfg : Option AlbionConfig)
    (price_data : List (String × CityData)) (tier resource_type : String) :
    ArbAnalysis :=
  let raw_prices := rawPriceList cfg price_data
  let prev_prices := prevPriceList cfg price_data
  let refined_prices := refinedPriceList cfg price_data
  { raw_recommendations := find_best_buy_sell raw_prices "raw" tier resource_type
    prev_refined_recommendations := find_best_buy_sell prev_prices "prev_refined" tier resource_type
    refined_recommendations := find_best_buy_sell refined_prices "refined" tier resource_type
    refining_opportunities := analyze_refining_arbitrage has_calculator cfg
      raw_prices prev_prices refined_prices tier resource_type }

end Market

namespace Refining

/-- Binary-search loop of RefiningCalculator.calculate_break_even_price:
while the interval is wider than the tolerance 0.01, probe the midpoint
and keep the half on which the profit sign changes.  The fuel argument is
an upper bound on the number of iterations; the loop exits on its own once
the interval is narrow enough. -/
def beLoop (P : ℚ → ℚ) : ℕ → ℚ → ℚ → ℚ × ℚ
  | 0, low, high => (low, high)
  | fuel + 1, low, high =>
    if 1/100 < high - low then
      let mid := (low + high) / 2
      if 0 < P mid then beLoop P fuel mid high else beLoop P fuel low mid
    else (low, high)

/-- Iteration bound sufficient for the loop above to reach the tolerance:
the width shrinks by half each step, so any fuel with width at most
0.01 times 2 to the fuel works. -/
def beFuel (width : ℚ) : ℕ := (⌈width * 100⌉).toNat + 1

/-- RefiningCalculator.calculate_break_even_price: binary search for the
raw price over the interval from 1 to ten times the refined price, with
all other parameters fixed and a reference quantity of 100, returning the
lower end of the final interval. -/
def calculate_break_even_price (tier resource_type city : String)
    (refined_price : ℚ) (specialization : ℤ) (premium use_focus : Bool)
    (prev_refined_price : ℚ) : ℚ :=
  let low : ℚ := 1
  let high : ℚ := refined_price * 10
  let P : ℚ → ℚ := fun mid => netProfitOf (calculate_refining_profit tier
    resource_type city mid refined_price 100 specialization premium use_focus
    prev_refined_price)
  (beLoop P (beFuel (high - low)) low high).1

end Refining

namespace Refining

/-- Input cost of an optional refining result. -/
def inputCostOf (r : Option RefiningResult) : ℚ := (r.map RefiningResult.input_cost).getD 0

/-- Tax cost of an optional refining result. -/
def taxCostOf (r : Option RefiningResult) : ℚ := (r.map RefiningResult.tax_cost).getD 0

end Refining

namespace Crafting

/-- Net profit of a crafting outcome, 0 on the error path. -/
def cNetProfitOf (e : Except String CraftingResult) : ℚ :=
  (e.toOption.map CraftingResult.net_profit).getD 0

/-- Total revenue of a crafting outcome, 0 on the error path. -/
def cRevenueOf (e : Except String CraftingResult) : ℚ :=
  (e.toOption.map CraftingResult.total_revenue).getD 0

/-- Total cost (materials plus tax) of a crafting outcome, 0 on the error
path. -/
def cCostOf (e : Except String CraftingResult) : ℚ :=
  (e.toOption.map CraftingResult.total_cost).getD 0

/-- Profit margin of a crafting outcome, 0 on the error path. -/
def cMarginOf (e : Except String CraftingResult) : ℚ :=
  (e.toOption.map CraftingResult.profit_margin).getD 0

end Crafting

/-- Lookup with default stays within bounds satisfied by the default and by
every value of the table. -/
theorem lookup_getD_bounds {α : Type} [BEq α] (l : List (α × ℚ)) (k : α) (d lo hi : ℚ)
    (hd : lo ≤ d ∧ d ≤ hi) (h : ∀ p ∈ l, lo ≤ p.2 ∧ p.2 ≤ hi) :
    lo ≤ (l.lookup k).getD d ∧ (l.lookup k).getD d ≤ hi := by
  induction l with
  | nil => simpa using hd
  | cons a t ih =>
    rw [List.lookup]
    split
    · exact h a (by simp)
    · exact ih (fun p hp => h p (by simp [hp]))

/-- The local production bonus read by the refining return-rate formula is
between 0 and 0.40 for every city and resource type. -/
theorem glpb_bounds (city resource_type : String) :
    0 ≤ Refining.get_local_production_bonus city resource_type ∧
      Refining.get_local_production_bonus city resource_type ≤ 40/100 := by
  unfold Refining.get_local_production_bonus Refining.glpb_city_bonuses
  simp only [List.lookup]
  repeat' split
  all_goals apply lookup_getD_bounds _ resource_type 0 0 (40/100) (by norm_num)
  all_goals intro p hp
  all_goals fin_cases hp <;> norm_num

/-- Saturating transform bounds: for a nonnegative total bonus the rate
1 - 1/(1 + B) lies in the interval from 0 inclusive to 1 exclusive. -/
theorem rrr_bounds {B : ℚ} (h : 0 ≤ B) : 0 ≤ 1 - 1/(1+B) ∧ 1 - 1/(1+B) < 1 := by
  have hB : (0:ℚ) < 1 + B := by linarith
  constructor
  · have : 1/(1+B) ≤ 1 := by rw [div_le_one hB]; linarith
    linarith
  · have : 0 < 1/(1+B) := by positivity
    linarith

/-- Saturating transform is strictly monotone in the total bonus. -/
theorem rrr_strict_mono {B B2 : ℚ} (h0 : 0 ≤ B) (h : B < B2) :
    1 - 1/(1+B) < 1 - 1/(1+B2) := by
  have hB : (0:ℚ) < 1 + B := by linarith
  have : 1/(1+B2) < 1/(1+B) := one_div_lt_one_div_of_lt hB (by linarith)
  linarith

/-- The refining return rate as the saturating transform of the additive
total bonus. -/
theorem return_rate_formula (city resource_type : String) (use_focus personal_island : Bool) :
    Refining.calculate_return_rate city resource_type use_focus personal_island
      = 1 - 1 / (1 + (18/100
          + (if personal_island then 0 else Refining.get_local_production_bonus city resource_type)
          + (if use_focus then 45/100 else 0))) := by
  unfold Refining.calculate_return_rate Refining.base_refining_bonus Refining.focus_bonus
  cases personal_island <;> cases use_focus <;> norm_num

/-- C1: the refining return rate equals 1 - 1/(1 + B) where B is the base
bonus 0.18, plus the city production bonus unless on a personal island,
plus 0.45 when focus is used; the rate always lies in the interval from 0
inclusive to 1 exclusive, and with focus it is strictly greater than
without, all else fixed. -/
theorem refining_return_rate_contract (city resource_type : String)
    (use_focus personal_island : Bool) :
    Refining.calculate_return_rate city resource_type use_focus personal_island
      = 1 - 1 / (1 + (18/100
          + (if personal_island then 0 else Refining.get_local_production_bonus city resource_type)
          + (if use_focus then 45/100 else 0)))
    ∧ 0 ≤ Refining.calculate_return_rate city resource_type use_focus personal_island
    ∧ Refining.calculate_return_rate city resource_type use_focus personal_island < 1
    ∧ Refining.calculate_return_rate city resource_type false personal_island
        < Refining.calculate_return_rate city resource_type true personal_island := by
  have hlpb := glpb_bounds city resource_type
  have hB : 0 ≤ 18/100
      + (if personal_island then 0 else Refining.get_local_production_bonus city resource_type)
      + (if use_focus then (45/100 : ℚ) else 0) := by
    cases personal_island <;> cases use_focus <;> simp <;> linarith [hlpb.1]
  have hBf : 0 ≤ 18/100
      + (if personal_island then 0 else Refining.get_local_production_bonus city resource_type)
      + (0 : ℚ) := by
    cases personal_island <;> simp <;> linarith [hlpb.1]
  refine ⟨return_rate_formula city resource_type use_focus personal_island, ?_, ?_, ?_⟩
  · rw [return_rate_formula]
    exact (rrr_bounds hB).1
  · rw [return_rate_formula]
    exact (rrr_bounds hB).2
  · rw [return_rate_formula city resource_type false personal_island,
      return_rate_formula city resource_type true personal_island]
    exact rrr_strict_mono (by simpa using hBf) (by simp)

/-- C9 (code bug evidence): the code's own mapping normalizes STONE to
ROCK and its reference bonus table gives Bridgewatch 0.40 for ROCK, yet
get_local_production_bonus applied to STONE yields 0 because it consults a
hard-coded table without STONE keys and without normalizing; consequently
the return rate and the refining profit differ between STONE and ROCK in
Bridgewatch. -/
theorem stone_rock_divergence :
    Refining.normalize_resource_type "STONE" = "ROCK"
    ∧ Refining.get_local_production_bonus "Bridgewatch" "ROCK" = 40/100
    ∧ Refining.get_local_production_bonus "Bridgewatch" "STONE" = 0
    ∧ Refining.calculate_return_rate "Bridgewatch" "STONE" true false
        ≠ Refining.calculate_return_rate "Bridgewatch" "ROCK" true false
    ∧ Refining.netProfitOf (Refining.calculate_refining_profit "T4" "STONE" "Bridgewatch"
          100 350 100 0 false false 0)
        ≠ Refining.netProfitOf (Refining.calculate_refining_profit "T4" "ROCK" "Bridgewatch"
          100 350 100 0 false false 0) := by
  refine ⟨rfl, rfl, rfl, ?_, ?_⟩
  · norm_num [Refining.calculate_return_rate, Refining.base_refining_bonus,
      Refining.focus_bonus,
      show Refining.get_local_production_bonus "Bridgewatch" "STONE" = 0 from rfl,
      show Refining.get_local_production_bonus "Bridgewatch" "ROCK" = 40/100 from rfl]
  · norm_num [Refining.netProfitOf, Refining.calculate_refining_profit,
      Refining.calculate_return_rate, Refining.base_refining_bonus, Refining.focus_bonus,
      Refining.nutrition_cost_multiplier,
      show Refining.get_local_production_bonus "Bridgewatch" "STONE" = 0 from rfl,
      show Refining.get_local_production_bonus "Bridgewatch" "ROCK" = 40/100 from rfl,
      show Refining.resource_requirements.lookup "T4" = some (2,1) from rfl,
      show Refining.tax_rates.lookup "Bridgewatch" = some (45/1000) from rfl,
      show Refining.item_values.lookup ("T4" ++ "_REFINED") = some 72 from rfl]

/-- The crafting return rate written as the capped linear formula, for all
inputs. -/
theorem crafting_rate_eq (tier : String) (s : ℤ) (premium use_focus : Bool) :
    Crafting.calculate_return_rate tier s premium use_focus
      = min ((Crafting.base_return_rate.lookup tier).getD (15/100)
          + (s : ℚ)/100 * (30/100) + (if use_focus then 35/100 else 0)) (70/100) := by
  unfold Crafting.calculate_return_rate
  cases use_focus <;> norm_num

/-- Base crafting return rates lie between 0.15 and 0.26. -/
theorem crafting_base_rate_bounds (tier : String) :
    15/100 ≤ (Crafting.base_return_rate.lookup tier).getD (15/100)
    ∧ (Crafting.base_return_rate.lookup tier).getD (15/100) ≤ 26/100 := by
  apply lookup_getD_bounds _ tier _ _ _ (by norm_num)
  intro p hp
  simp only [Crafting.base_return_rate] at hp
  fin_cases hp <;> norm_num

/-- C2: for specialization between 0 and 100, the crafting return rate
equals the capped formula min(base(tier) + spec/100 times 0.30 + 0.35 when
focus is used, 0.70), lies between 0 and 0.70, and is monotonically
non-decreasing in specialization and in focus usage, all else fixed. -/
theorem crafting_return_rate_contract (tier : String) (s : ℤ) (premium use_focus : Bool)
    (h0 : 0 ≤ s) (h1 : s ≤ 100) :
    Crafting.calculate_return_rate tier s premium use_focus
      = min ((Crafting.base_return_rate.lookup tier).getD (15/100)
          + (s : ℚ)/100 * (30/100) + (if use_focus then 35/100 else 0)) (70/100)
    ∧ 0 ≤ Crafting.calculate_return_rate tier s premium use_focus
    ∧ Crafting.calculate_return_rate tier s premium use_focus ≤ 70/100
    ∧ (∀ s2 : ℤ, s ≤ s2 → Crafting.calculate_return_rate tier s premium use_focus
        ≤ Crafting.calculate_return_rate tier s2 premium use_focus)
    ∧ Crafting.calculate_return_rate tier s premium false
        ≤ Crafting.calculate_return_rate tier s premium true := by
  have hb := crafting_base_rate_bounds tier
  have hs : (0:ℚ) ≤ (s:ℚ) := by exact_mod_cast h0
  refine ⟨crafting_rate_eq tier s premium use_focus, ?_, ?_, ?_, ?_⟩
  · rw [crafting_rate_eq]
    apply le_min _ (by norm_num)
    have : (0:ℚ) ≤ (s:ℚ)/100 * (30/100) := by positivity
    cases use_focus <;> simp <;> linarith [hb.1]
  · rw [crafting_rate_eq]
    exact min_le_right _ _
  · intro s2 hs2
    rw [crafting_rate_eq, crafting_rate_eq]
    apply min_le_min _ le_rfl
    have hc : (s:ℚ) ≤ (s2:ℚ) := by exact_mod_cast hs2
    have : (s:ℚ)/100 * (30/100) ≤ (s2:ℚ)/100 * (30/100) := by linarith
    linarith
  · rw [crafting_rate_eq, crafting_rate_eq]
    apply min_le_min _ le_rfl
    simp
    linarith

/-- Witness for C2 at tier T5, specialization 50, premium and focus on:
the hypotheses are satisfiable and the bound holds there. -/
theorem crafting_return_rate_contract_witness :
    Crafting.calculate_return_rate "T5" 50 true true ≤ 70/100 :=
  (crafting_return_rate_contract "T5" 50 true true (by norm_num) (by norm_num)).2.2.1

/-- Focus-cost formula as stated by the specification: base cost times
quantity times the specialization reduction times a premium multiplier,
truncated and floored at 1 per batch. -/
def specFocusCostFormula (base : ℚ) (quantity : ℕ) (s : ℤ)
    (reductionFactor premiumMult : ℚ) (premium : Bool) : ℤ :=
  max 1 (pyInt (base * (quantity : ℚ) * (1 - (s : ℚ)/100 * reductionFactor)
    * (if premium then premiumMult else 1)))

/-- C3 (amended): the refining focus cost follows the claimed formula with
reduction factor 0.5 and premium multiplier 0.5; the crafting focus cost
is premium-independent (no premium multiplier exists), is computed per
craft with the floor at 1 applied per craft rather than per batch (the
profit calculation then multiplies by quantity), and is 0 without focus. -/
theorem focus_cost_structure :
    (∀ (t : String) (q : ℕ) (s : ℤ) (p : Bool),
      Refining.calculate_focus_cost t q s p
        = specFocusCostFormula ((Refining.base_focus_cost.lookup t).getD 10) q s
            (50/100) (50/100) p)
    ∧ (∀ (t : String) (s : ℤ) (p1 p2 uf : Bool),
      Crafting.calculate_focus_cost t s p1 uf = Crafting.calculate_focus_cost t s p2 uf)
    ∧ (∀ (t : String) (s : ℤ) (p : Bool), 1 ≤ Crafting.calculate_focus_cost t s p true)
    ∧ (∀ (t : String) (s : ℤ) (p : Bool), Crafting.calculate_focus_cost t s p false = 0) := by
  refine ⟨?_, ?_, ?_, ?_⟩
  · intro t q s p
    unfold Refining.calculate_focus_cost specFocusCostFormula Refining.premium_bonus
    cases p <;> norm_num
  · intro t s p1 p2 uf
    unfold Crafting.calculate_focus_cost
    rfl
  · intro t s p
    simp only [Crafting.calculate_focus_cost]
    norm_num
  · intro t s p
    rfl

/-- C3 counterexample: the refining focus cost does use the premium
multiplier 0.5, but the crafting focus cost is identical with and without
premium, and its floor at 1 is applied per craft before the quantity
multiplication, so a 2-craft batch at specialization 30 costs 16 focus
while the claimed batch formula yields 17, whatever premium multiplier is
assumed (premium is off here, making the multiplier factor 1). -/
theorem focus_cost_claim_counterexample :
    Refining.calculate_focus_cost "T4" 10 0 false = 100
    ∧ Refining.calculate_focus_cost "T4" 10 0 true = 50
    ∧ Crafting.calculate_focus_cost "T4" 0 false true
        = Crafting.calculate_focus_cost "T4" 0 true true
    ∧ (Crafting.calculate_crafting_profit "T4_SWORD" "Nowhere" [] 0 2 30 false true).map
        Crafting.CraftingResult.focus_cost = Except.ok 16
    ∧ specFocusCostFormula 10 2 30 (50/100) (50/100) false = 17
    ∧ (16 : ℤ) ≠ 17 := by
  refine ⟨?_, ?_, rfl, ?_, ?_, by norm_num⟩
  · norm_num [Refining.calculate_focus_cost, Refining.premium_bonus, pyInt,
      show Refining.base_focus_cost.lookup "T4" = some 10 from rfl]
  · norm_num [Refining.calculate_focus_cost, Refining.premium_bonus, pyInt,
      show Refining.base_focus_cost.lookup "T4" = some 10 from rfl]
  · norm_num [Crafting.calculate_crafting_profit, Crafting.calculate_focus_cost,
      pyInt, Except.map,
      show Crafting.recipes.lookup "T4_SWORD"
        = some ⟨[("T4_METAL", 16), ("T3_METAL", 8)], "WEAPON", "METAL"⟩ from rfl,
      show Crafting.tierOf "T4_SWORD" = "T4" from rfl,
      show Crafting.focus_per_craft.lookup "T4" = some 10 from rfl]
  · norm_num [specFocusCostFormula, pyInt]

/-- C10 (amended): the refining profit margin equals net profit divided by
input cost plus tax cost, times 100, whenever that denominator is
positive, and 0 otherwise; the crafting profit margin instead divides the
net profit by total revenue (guarded to 0 when revenue is not positive).
Both are total rational-valued computations, so no undefined value can
arise. -/
theorem profit_margin_guards :
    (∀ (tier res city : String) (rp fp : ℚ) (q : ℕ) (s : ℤ) (prem uf : Bool) (pp : ℚ),
      Refining.marginOf (Refining.calculate_refining_profit tier res city rp fp q s prem uf pp)
        = if 0 < Refining.inputCostOf (Refining.calculate_refining_profit tier res city rp fp q s prem uf pp)
              + Refining.taxCostOf (Refining.calculate_refining_profit tier res city rp fp q s prem uf pp)
          then Refining.netProfitOf (Refining.calculate_refining_profit tier res city rp fp q s prem uf pp)
              / (Refining.inputCostOf (Refining.calculate_refining_profit tier res city rp fp q s prem uf pp)
                + Refining.taxCostOf (Refining.calculate_refining_profit tier res city rp fp q s prem uf pp)) * 100
          else 0)
    ∧ (∀ (item city : String) (mp : List (String × ℚ)) (sp : ℚ) (q : ℕ) (s : ℤ) (prem uf : Bool),
      Crafting.cMarginOf (Crafting.calculate_crafting_profit item city mp sp q s prem uf)
        = if 0 < Crafting.cRevenueOf (Crafting.calculate_crafting_profit item city mp sp q s prem uf)
          then Crafting.cNetProfitOf (Crafting.calculate_crafting_profit item city mp sp q s prem uf)
              / Crafting.cRevenueOf (Crafting.calculate_crafting_profit item city mp sp q s prem uf) * 100
          else 0) := by
  constructor
  · intro tier res city rp fp q s prem uf pp
    simp only [Refining.calculate_refining_profit]
    split
    · simp [Refining.marginOf, Refining.inputCostOf, Refining.taxCostOf, Refining.netProfitOf]
    · simp [Refining.marginOf, Refining.inputCostOf, Refining.taxCostOf, Refining.netProfitOf]
  · intro item city mp sp q s prem uf
    simp only [Crafting.calculate_crafting_profit]
    split
    · simp [Crafting.cMarginOf, Crafting.cRevenueOf, Crafting.cNetProfitOf, Except.toOption]
    · simp [Crafting.cMarginOf, Crafting.cRevenueOf, Crafting.cNetProfitOf, Except.toOption]

/-- C10 counterexample: for a concrete crafting computation with a
positive cost denominator, the reported margin is net profit over total
revenue (about 74 percent), not net profit over input-plus-tax cost
(about 287 percent), so the claimed margin formula does not hold for the
crafting calculator. -/
theorem crafting_margin_counterexample :
    Crafting.cCostOf (Crafting.calculate_crafting_profit "T4_SWORD" "Nowhere"
        [("T4_METAL", 1), ("T3_METAL", 1)] 100 1 0 false false) = 119/4
    ∧ Crafting.cMarginOf (Crafting.calculate_crafting_profit "T4_SWORD" "Nowhere"
        [("T4_METAL", 1), ("T3_METAL", 1)] 100 1 0 false false) = 1705/23
    ∧ Crafting.cNetProfitOf (Crafting.calculate_crafting_profit "T4_SWORD" "Nowhere"
        [("T4_METAL", 1), ("T3_METAL", 1)] 100 1 0 false false)
        / Crafting.cCostOf (Crafting.calculate_crafting_profit "T4_SWORD" "Nowhere"
        [("T4_METAL", 1), ("T3_METAL", 1)] 100 1 0 false false) * 100 = 34100/119
    ∧ (1705/23 : ℚ) ≠ 34100/119 := by
  refine ⟨?_, ?_, ?_, by norm_num⟩ <;>
    norm_num [Crafting.cCostOf, Crafting.cMarginOf, Crafting.cNetProfitOf,
      Crafting.calculate_crafting_profit, Crafting.calculate_return_rate,
      Crafting.calculate_focus_cost, Except.toOption,
      show Crafting.recipes.lookup "T4_SWORD"
        = some ⟨[("T4_METAL", 16), ("T3_METAL", 8)], "WEAPON", "METAL"⟩ from rfl,
      show Crafting.tierOf "T4_SWORD" = "T4" from rfl,
      show Crafting.base_return_rate.lookup "T4" = some (15/100) from rfl,
      show Crafting.city_bonuses.lookup "Nowhere" = (none : Option (List (String × ℚ))) from rfl,
      show Crafting.tax_rates.lookup "Nowhere" = (none : Option ℚ) from rfl,
      show List.lookup "T4_METAL" [("T4_METAL", (1:ℚ)), ("T3_METAL", 1)] = some 1 from rfl,
      show List.lookup "T3_METAL" [("T4_METAL", (1:ℚ)), ("T3_METAL", 1)] = some 1 from rfl]

/-- Lookup skips a head entry whose key differs. -/
theorem lookup_cons_ne {β : Type} (k a : String) (b : β) (l : List (String × β))
    (h : ¬ k = a) : List.lookup k ((a, b) :: l) = List.lookup k l := by
  rw [List.lookup]
  split
  · next heq => exact absurd (by simpa using heq) h
  · rfl

/-- An unknown tier key misses the whole refining focus-cost table. -/
theorem base_focus_lookup_unknown (t : String)
    (h4 : ¬ t = "T4") (h5 : ¬ t = "T5") (h6 : ¬ t = "T6")
    (h7 : ¬ t = "T7") (h8 : ¬ t = "T8") :
    Refining.base_focus_cost.lookup t = none := by
  simp only [Refining.base_focus_cost]
  rw [lookup_cons_ne _ _ _ _ h4, lookup_cons_ne _ _ _ _ h5, lookup_cons_ne _ _ _ _ h6,
    lookup_cons_ne _ _ _ _ h7, lookup_cons_ne _ _ _ _ h8]
  rfl

/-- An unknown tier key misses the refining requirement table. -/
theorem requirements_lookup_unknown (t : String)
    (h4 : ¬ t = "T4") (h5 : ¬ t = "T5") (h6 : ¬ t = "T6")
    (h7 : ¬ t = "T7") (h8 : ¬ t = "T8") :
    Refining.resource_requirements.lookup t = none := by
  simp only [Refining.resource_requirements]
  rw [lookup_cons_ne _ _ _ _ h4, lookup_cons_ne _ _ _ _ h5, lookup_cons_ne _ _ _ _ h6,
    lookup_cons_ne _ _ _ _ h7, lookup_cons_ne _ _ _ _ h8]
  rfl

/-- An unknown city key misses the hard-coded production-bonus table, so
the bonus falls back to 0. -/
theorem glpb_unknown_city (c r : String)
    (g1 : ¬ c = "Fort Sterling") (g2 : ¬ c = "Lymhurst") (g3 : ¬ c = "Bridgewatch")
    (g4 : ¬ c = "Martlock") (g5 : ¬ c = "Thetford") (g6 : ¬ c = "Caerleon")
    (g7 : ¬ c = "Brecilien") :
    Refining.get_local_production_bonus c r = 0 := by
  unfold Refining.get_local_production_bonus
  simp only [Refining.glpb_city_bonuses]
  rw [lookup_cons_ne _ _ _ _ g1, lookup_cons_ne _ _ _ _ g2, lookup_cons_ne _ _ _ _ g3,
    lookup_cons_ne _ _ _ _ g4, lookup_cons_ne _ _ _ _ g5, lookup_cons_ne _ _ _ _ g6,
    lookup_cons_ne _ _ _ _ g7]
  rfl

/-- An unknown tier key misses the crafting base-return-rate table. -/
theorem craft_base_rate_lookup_unknown (t : String)
    (h4 : ¬ t = "T4") (h5 : ¬ t = "T5") (h6 : ¬ t = "T6")
    (h7 : ¬ t = "T7") (h8 : ¬ t = "T8") :
    Crafting.base_return_rate.lookup t = none := by
  simp only [Crafting.base_return_rate]
  rw [lookup_cons_ne _ _ _ _ h4, lookup_cons_ne _ _ _ _ h5, lookup_cons_ne _ _ _ _ h6,
    lookup_cons_ne _ _ _ _ h7, lookup_cons_ne _ _ _ _ h8]
  rfl

/-- C6 (amended): unknown tier, city or resource keys make the refining
return rate, the refining focus cost, the refining profit and the crafting
return rate fall back to their documented defaults and still produce a
result; the crafting profit calculation, however, rejects an unknown
recipe id with an error, and succeeds exactly on recipe-table hits. -/
theorem reference_lookup_fallbacks :
    (∀ (t : String) (q : ℕ) (s : ℤ) (p : Bool),
      ¬ t = "T4" → ¬ t = "T5" → ¬ t = "T6" → ¬ t = "T7" → ¬ t = "T8" →
      Refining.calculate_focus_cost t q s p = Refining.calculate_focus_cost "T4" q s p)
    ∧ (∀ (c r : String) (uf pi : Bool),
      ¬ c = "Fort Sterling" → ¬ c = "Lymhurst" → ¬ c = "Bridgewatch" →
      ¬ c = "Martlock" → ¬ c = "Thetford" → ¬ c = "Caerleon" → ¬ c = "Brecilien" →
      Refining.calculate_return_rate c r uf pi
        = Refining.calculate_return_rate "Caerleon" r uf pi)
    ∧ (∀ (t r c : String) (rp fp : ℚ) (q : ℕ) (s : ℤ) (prem uf : Bool) (pp : ℚ),
      ¬ t = "T4" → ¬ t = "T5" → ¬ t = "T6" → ¬ t = "T7" → ¬ t = "T8" → 2 ≤ q →
      (Refining.calculate_refining_profit t r c rp fp q s prem uf pp).isSome = true)
    ∧ (∀ (t : String) (s : ℤ) (p uf : Bool),
      ¬ t = "T4" → ¬ t = "T5" → ¬ t = "T6" → ¬ t = "T7" → ¬ t = "T8" →
      Crafting.calculate_return_rate t s p uf
        = min ((15/100) + (s : ℚ)/100 * (30/100) + (if uf then 35/100 else 0)) (70/100))
    ∧ (∀ (item c : String) (mp : List (String × ℚ)) (sp : ℚ) (q : ℕ) (s : ℤ) (prem uf : Bool),
      Crafting.recipes.lookup item = none →
      Crafting.calculate_crafting_profit item c mp sp q s prem uf
        = Except.error ("Recipe not found for " ++ item))
    ∧ (∀ (item c : String) (rcp : Crafting.Recipe) (mp : List (String × ℚ)) (sp : ℚ)
        (q : ℕ) (s : ℤ) (prem uf : Bool),
      Crafting.recipes.lookup item = some rcp →
      (Crafting.calculate_crafting_profit item c mp sp q s prem uf).isOk = true) := by
  refine ⟨?_, ?_, ?_, ?_, ?_, ?_⟩
  · intro t q s p h4 h5 h6 h7 h8
    unfold Refining.calculate_focus_cost
    rw [base_focus_lookup_unknown t h4 h5 h6 h7 h8]
    rfl
  · intro c r uf pi g1 g2 g3 g4 g5 g6 g7
    unfold Refining.calculate_return_rate
    rw [glpb_unknown_city c r g1 g2 g3 g4 g5 g6 g7]
    rfl
  · intro t r c rp fp q s prem uf pp h4 h5 h6 h7 h8 hq
    simp only [Refining.calculate_refining_profit]
    rw [requirements_lookup_unknown t h4 h5 h6 h7 h8]
    have hnz : ¬ q / 2 = 0 := by
      rw [Nat.div_eq_zero_iff (by norm_num)]
      omega
    simp [hnz]
  · intro t s p uf h4 h5 h6 h7 h8
    rw [crafting_rate_eq, craft_base_rate_lookup_unknown t h4 h5 h6 h7 h8]
    rfl
  · intro item c mp sp q s prem uf hmiss
    unfold Crafting.calculate_crafting_profit
    rw [hmiss]
  · intro item c rcp mp sp q s prem uf hhit
    unfold Crafting.calculate_crafting_profit
    rw [hhit]
    rfl

/-- Witness for C6 at the unknown tier T9 and an unknown recipe id: the
fallbacks fire and the unknown recipe id yields the error value. -/
theorem reference_lookup_fallbacks_witness :
    (Refining.calculate_refining_profit "T9" "ORE" "Atlantis" 1 1 10 0 false false 0).isSome = true
    ∧ Crafting.calculate_crafting_profit "T9_SUPERSWORD" "Caerleon" [] 100 1 0 false false
        = Except.error ("Recipe not found for " ++ "T9_SUPERSWORD") :=
  ⟨reference_lookup_fallbacks.2.2.1 "T9" "ORE" "Atlantis" 1 1 10 0 false false 0
      (by decide) (by decide) (by decide) (by decide) (by decide) (by norm_num),
   reference_lookup_fallbacks.2.2.2.2.1 "T9_SUPERSWORD" "Caerleon" [] 100 1 0 false false rfl⟩

/-- C6 counterexample: the crafting profit calculation does abort on an
unknown recipe key instead of falling back to a default. -/
theorem crafting_profit_unknown_recipe_raises :
    (Crafting.calculate_crafting_profit "T9_SUPERSWORD" "Caerleon" [] 100 1 0 false false).isOk
      = false := rfl

/-- Properties of the best-buy loop state: a none result means no positive
sell price was seen and the accumulator was empty; a some result carries a
positive price that originates in the list or the accumulator, is minimal
among all positive sell prices of the list, and never exceeds the
accumulator price. -/
theorem buyFold_spec (l : List (String × Market.PriceEntry)) :
    ∀ (bb : Option (String × ℚ)), (∀ x, bb = some x → 0 < x.2) →
    (Market.buyFold l bb = none → bb = none ∧ ∀ cd ∈ l, ¬ 0 < cd.2.sell_price)
    ∧ (∀ c p, Market.buyFold l bb = some (c, p) →
        0 < p
        ∧ ((∃ d, (c, d) ∈ l ∧ d.sell_price = p) ∨ bb = some (c, p))
        ∧ (∀ cd ∈ l, 0 < cd.2.sell_price → p ≤ cd.2.sell_price)
        ∧ (∀ c0 p0, bb = some (c0, p0) → p ≤ p0)) := by
  induction l with
  | nil =>
    intro bb hbb
    constructor
    · intro h
      exact ⟨h, by simp⟩
    · intro c p h
      refine ⟨hbb _ h, Or.inr h, by simp, ?_⟩
      intro c0 p0 h0
      rw [h0] at h
      injection h with h
      rw [(Prod.mk.injEq _ _ _ _).mp h |>.2]
  | cons a rest ih =>
    intro bb hbb
    obtain ⟨city, d⟩ := a
    by_cases hd : 0 < d.sell_price
    · cases bb with
      | none =>
        have hstep : Market.buyFold ((city, d) :: rest) none
            = Market.buyFold rest (some (city, d.sell_price)) := by
          simp [Market.buyFold, hd]
        have hacc : ∀ x, some (city, d.sell_price) = some x → 0 < x.2 := by
          intro x hx
          injection hx with hx
          rw [← hx]
          exact hd
        obtain ⟨ihnone, ihsome⟩ := ih (some (city, d.sell_price)) hacc
        rw [hstep]
        constructor
        · intro h
          exact absurd (ihnone h).1 (by simp)
        · intro c p h
          obtain ⟨hp, horig, hmin, hacc2⟩ := ihsome c p h
          refine ⟨hp, ?_, ?_, by simp⟩
          · rcases horig with ⟨e, he, hep⟩ | hbb2
            · exact Or.inl ⟨e, List.mem_cons_of_mem _ he, hep⟩
            · injection hbb2 with hbb2
              have hc : city = c := ((Prod.mk.injEq _ _ _ _).mp hbb2).1
              have hps : d.sell_price = p := ((Prod.mk.injEq _ _ _ _).mp hbb2).2
              exact Or.inl ⟨d, by rw [← hc]; exact List.mem_cons_self _ _, hps⟩
          · intro cd hcd hpos
            rcases List.mem_cons.mp hcd with hcd | hcd
            · rw [hcd]
              exact hacc2 city d.sell_price rfl
            · exact hmin cd hcd hpos
      | some cp =>
        obtain ⟨c0, p0⟩ := cp
        have hp0 : 0 < p0 := hbb (c0, p0) rfl
        by_cases hlt : d.sell_price < p0
        · have hstep : Market.buyFold ((city, d) :: rest) (some (c0, p0))
              = Market.buyFold rest (some (city, d.sell_price)) := by
            simp [Market.buyFold, hd, hlt]
          have hacc : ∀ x, some (city, d.sell_price) = some x → 0 < x.2 := by
            intro x hx
            injection hx with hx
            rw [← hx]
            exact hd
          obtain ⟨ihnone, ihsome⟩ := ih (some (city, d.sell_price)) hacc
          rw [hstep]
          constructor
          · intro h
            exact absurd (ihnone h).1 (by simp)
          · intro c p h
            obtain ⟨hp, horig, hmin, hacc2⟩ := ihsome c p h
            have hple : p ≤ d.sell_price := hacc2 city d.sell_price rfl
            refine ⟨hp, ?_, ?_, ?_⟩
            · rcases horig with ⟨e, he, hep⟩ | hbb2
              · exact Or.inl ⟨e, List.mem_cons_of_mem _ he, hep⟩
              · injection hbb2 with hbb2
                have hc : city = c := ((Prod.mk.injEq _ _ _ _).mp hbb2).1
                have hps : d.sell_price = p := ((Prod.mk.injEq _ _ _ _).mp hbb2).2
                exact Or.inl ⟨d, by rw [← hc]; exact List.mem_cons_self _ _, hps⟩
            · intro cd hcd hpos
              rcases List.mem_cons.mp hcd with hcd | hcd
              · rw [hcd]
                exact hple
              · exact hmin cd hcd hpos
            · intro c1 p1 h1
              injection h1 with h1
              have := (Prod.mk.injEq _ _ _ _).mp h1 |>.2
              rw [← this]
              linarith
        · have hstep : Market.buyFold ((city, d) :: rest) (some (c0, p0))
              = Market.buyFold rest (some (c0, p0)) := by
            simp [Market.buyFold, hd, hlt]
          obtain ⟨ihnone, ihsome⟩ := ih (some (c0, p0)) hbb
          rw [hstep]
          constructor
          · intro h
            exact absurd (ihnone h).1 (by simp)
          · intro c p h
            obtain ⟨hp, horig, hmin, hacc2⟩ := ihsome c p h
            have hple : p ≤ p0 := hacc2 c0 p0 rfl
            refine ⟨hp, ?_, ?_, ?_⟩
            · rcases horig with ⟨e, he, hep⟩ | hbb2
              · exact Or.inl ⟨e, List.mem_cons_of_mem _ he, hep⟩
              · exact Or.inr hbb2
            · intro cd hcd hpos
              rcases List.mem_cons.mp hcd with hcd | hcd
              · rw [hcd]
                push_neg at hlt
                linarith
              · exact hmin cd hcd hpos
            · intro c1 p1 h1
              injection h1 with h1
              have := (Prod.mk.injEq _ _ _ _).mp h1 |>.2
              rw [← this]
              exact hple
    · have hstep : Market.buyFold ((city, d) :: rest) bb = Market.buyFold rest bb := by
        cases bb <;> simp [Market.buyFold, hd]
      obtain ⟨ihnone, ihsome⟩ := ih bb hbb
      rw [hstep]
      constructor
      · intro h
        obtain ⟨h1, h2⟩ := ihnone h
        refine ⟨h1, ?_⟩
        intro cd hcd
        rcases List.mem_cons.mp hcd with hcd | hcd
        · rw [hcd]
          exact hd
        · exact h2 cd hcd
      · intro c p h
        obtain ⟨hp, horig, hmin, hacc2⟩ := ihsome c p h
        refine ⟨hp, ?_, ?_, hacc2⟩
        · rcases horig with ⟨e, he, hep⟩ | hbb2
          · exact Or.inl ⟨e, List.mem_cons_of_mem _ he, hep⟩
          · exact Or.inr hbb2
        · intro cd hcd hpos
          rcases List.mem_cons.mp hcd with hcd | hcd
          · rw [hcd] at hpos
            exact absurd hpos hd
          · exact hmin cd hcd hpos

/-- Properties of the best-sell loop state: the price never decreases and
bounds every buy price of the list; if the city stays none the state is
unchanged; a some city originates in the list at the final price after a
strict increase, or is carried unchanged from the accumulator. -/
theorem sellFold_spec (l : List (String × Market.PriceEntry)) :
    ∀ (bs : Option String × ℚ),
    bs.2 ≤ (Market.sellFold l bs).2
    ∧ (∀ cd ∈ l, cd.2.buy_price ≤ (Market.sellFold l bs).2)
    ∧ ((Market.sellFold l bs).1 = none → Market.sellFold l bs = bs)
    ∧ (∀ c, (Market.sellFold l bs).1 = some c →
        (∃ d, (c, d) ∈ l ∧ d.buy_price = (Market.sellFold l bs).2
          ∧ bs.2 < (Market.sellFold l bs).2)
        ∨ (bs.1 = some c ∧ (Market.sellFold l bs).2 = bs.2)) := by
  induction l with
  | nil =>
    intro bs
    refine ⟨le_rfl, by simp, fun _ => rfl, ?_⟩
    intro c hc
    exact Or.inr ⟨hc, rfl⟩
  | cons a rest ih =>
    intro bs
    obtain ⟨city, d⟩ := a
    by_cases hgt : bs.2 < d.buy_price
    · have hstep : Market.sellFold ((city, d) :: rest) bs
          = Market.sellFold rest (some city, d.buy_price) := by
        simp [Market.sellFold, hgt]
      obtain ⟨ih1, ih2, ih3, ih4⟩ := ih (some city, d.buy_price)
      rw [hstep]
      refine ⟨le_trans (le_of_lt hgt) ih1, ?_, ?_, ?_⟩
      · intro cd hcd
        rcases List.mem_cons.mp hcd with hcd | hcd
        · rw [hcd]
          exact ih1
        · exact ih2 cd hcd
      · intro h
        have := ih3 h
        rw [this] at h
        simp at h
      · intro c hc
        rcases ih4 c hc with ⟨e, he, hep, hlt⟩ | ⟨hcarry, heq⟩
        · exact Or.inl ⟨e, List.mem_cons_of_mem _ he, hep, lt_of_lt_of_le hgt (by linarith)⟩
        · have hc : city = c := by simpa using hcarry
          refine Or.inl ⟨d, by rw [← hc]; exact List.mem_cons_self _ _, ?_, ?_⟩
          · rw [heq]
          · rw [heq]
            exact hgt
    · have hstep : Market.sellFold ((city, d) :: rest) bs = Market.sellFold rest bs := by
        simp [Market.sellFold, hgt]
      obtain ⟨ih1, ih2, ih3, ih4⟩ := ih bs
      rw [hstep]
      refine ⟨ih1, ?_, ih3, ?_⟩
      · intro cd hcd
        rcases List.mem_cons.mp hcd with hcd | hcd
        · rw [hcd]
          push_neg at hgt
          linarith
        · exact ih2 cd hcd
      · intro c hc
        rcases ih4 c hc with ⟨e, he, hep, hlt⟩ | hcarry
        · exact Or.inl ⟨e, List.mem_cons_of_mem _ he, hep, hlt⟩
        · exact Or.inr hcarry

/-- C4 (amended): each category of analyze_opportunities is served by
find_best_buy_sell on the per-category availability-filtered city list,
and on any price list that function recommends buying at a city attaining
the lowest strictly positive sell price (none when there is none), selling
at a city attaining the highest buy price, which is strictly positive when
present; when both sides exist the profit per unit is their difference,
the margin is profit over buy price times 100, and the profitable verdict
holds exactly when the profit is positive and the margin exceeds 5. -/
theorem arbitrage_buy_sell_contract :
    (∀ hc cfg pd t r,
      (Market.analyze_opportunities hc cfg pd t r).raw_recommendations
          = Market.find_best_buy_sell (Market.rawPriceList cfg pd) "raw" t r
      ∧ (Market.analyze_opportunities hc cfg pd t r).prev_refined_recommendations
          = Market.find_best_buy_sell (Market.prevPriceList cfg pd) "prev_refined" t r
      ∧ (Market.analyze_opportunities hc cfg pd t r).refined_recommendations
          = Market.find_best_buy_sell (Market.refinedPriceList cfg pd) "refined" t r)
    ∧ (∀ (L : List (String × Market.PriceEntry)) (it t r : String) (rec : Market.BuySellRec),
      Market.find_best_buy_sell L it t r = some rec →
      (rec.buy_city = none → ∀ cd ∈ L, ¬ 0 < cd.2.sell_price)
      ∧ (∀ b, rec.buy_city = some b →
          0 < rec.buy_price
          ∧ (∃ d, (b, d) ∈ L ∧ d.sell_price = rec.buy_price)
          ∧ ∀ cd ∈ L, 0 < cd.2.sell_price → rec.buy_price ≤ cd.2.sell_price)
      ∧ (rec.sell_city = none → (∀ cd ∈ L, ¬ 0 < cd.2.buy_price) ∧ rec.sell_price = 0)
      ∧ (∀ sc, rec.sell_city = some sc →
          0 < rec.sell_price
          ∧ (∃ d, (sc, d) ∈ L ∧ d.buy_price = rec.sell_price)
          ∧ ∀ cd ∈ L, cd.2.buy_price ≤ rec.sell_price)
      ∧ ((rec.buy_city).isSome = true → 0 < rec.sell_price →
          rec.profit_per_unit = rec.sell_price - rec.buy_price
          ∧ rec.profit_margin_percent = rec.profit_per_unit / rec.buy_price * 100)
      ∧ (rec.is_profitable = true ↔ 0 < rec.profit_per_unit ∧ 5 < rec.profit_margin_percent)) := by
  constructor
  · intro hc cfg pd t r
    exact ⟨rfl, rfl, rfl⟩
  · intro L it t r rec h
    by_cases hL : L = []
    · rw [Market.find_best_buy_sell, if_pos hL] at h
      exact absurd h (by simp)
    · rw [Market.find_best_buy_sell, if_neg hL] at h
      have hrec := ((Option.some.injEq _ _).mp h).symm
      obtain ⟨bspec_none, bspec_some⟩ := buyFold_spec L none (by simp)
      obtain ⟨s1, s2, s3, s4⟩ := sellFold_spec L (none, 0)
      rcases hbb : Market.buyFold L none with _ | ⟨c1, p1⟩
      · -- no positive sell price anywhere
        have hnone := bspec_none hbb
        rcases hss : (Market.sellFold L (none, 0)).1 with _ | sc
        · have hsfix := s3 hss
          refine ⟨fun _ => hnone.2, ?_, ?_, ?_, ?_, ?_⟩
          · intro b hb
            rw [hrec] at hb
            simp [hbb] at hb
          · intro _
            constructor
            · intro cd hcd
              have := s2 cd hcd
              rw [hsfix] at this
              simpa using this
            · rw [hrec]
              simp [hsfix]
          · intro sc hsc
            rw [hrec] at hsc
            simp [hss] at hsc
          · intro habs
            rw [hrec] at habs
            simp [hbb] at habs
          · rw [hrec]
            simp [hbb]
        · rcases s4 sc hss with ⟨d, hd, hdp, hlt⟩ | ⟨habs, _⟩
          · refine ⟨fun _ => hnone.2, ?_, ?_, ?_, ?_, ?_⟩
            · intro b hb
              rw [hrec] at hb
              simp [hbb] at hb
            · intro habs2
              rw [hrec] at habs2
              simp [hss] at habs2
            · intro sc2 hsc2
              rw [hrec] at hsc2
              simp [hss] at hsc2
              refine ⟨by rw [hrec]; simpa using hlt, ⟨d, ?_, ?_⟩, ?_⟩
              · rw [← hsc2]
                exact hd
              · rw [hrec]
                simpa using hdp
              · intro cd hcd
                rw [hrec]
                simpa using s2 cd hcd
            · intro habs2
              rw [hrec] at habs2
              simp [hbb] at habs2
            · rw [hrec]
              simp [hbb]
          · simp at habs
      · -- a best buy exists
        obtain ⟨hp1, horig, hmin, _⟩ := bspec_some c1 p1 hbb
        have horig2 : ∃ d, (c1, d) ∈ L ∧ d.sell_price = p1 := by
          rcases horig with h2 | h2
          · exact h2
          · simp at h2
        refine ⟨?_, ?_, ?_, ?_, ?_, ?_⟩
        · intro habs
          rw [hrec] at habs
          simp [hbb] at habs
        · intro b hb
          rw [hrec] at hb
          simp [hbb] at hb
          rw [hrec]
          simp [hbb]
          rw [← hb]
          refine ⟨hp1, horig2, ?_⟩
          intro a b hab hpos
          exact hmin (a, b) hab hpos
        · intro hsnone
          rw [hrec] at hsnone
          simp at hsnone
          have hsfix := s3 hsnone
          constructor
          · intro cd hcd
            have := s2 cd hcd
            rw [hsfix] at this
            simpa using this
          · rw [hrec]
            simp [hsfix]
        · intro sc hsc
          rw [hrec] at hsc
          simp at hsc
          rcases s4 sc hsc with ⟨d, hd, hdp, hlt⟩ | ⟨habs, _⟩
          · refine ⟨by rw [hrec]; simpa using hlt, ⟨d, hd, by rw [hrec]; simpa using hdp⟩, ?_⟩
            intro cd hcd
            rw [hrec]
            simpa using s2 cd hcd
          · simp at habs
        · intro _ hpos
          rw [hrec] at hpos
          simp at hpos
          rw [hrec]
          simp [hbb, hpos, hp1]
        · rw [hrec]
          simp [hbb]

/-- Witness for C4 on a concrete two-city price list: A sells at 10, B
bids 30, so the verdict equivalence holds at the computed recommendation. -/
theorem arbitrage_buy_sell_contract_witness :
    (⟨"raw", "T4", "ORE", some "A", 10, some "B", 30, 20, 200, true⟩ :
        Market.BuySellRec).is_profitable = true
      ↔ 0 < (⟨"raw", "T4", "ORE", some "A", 10, some "B", 30, 20, 200, true⟩ :
        Market.BuySellRec).profit_per_unit
        ∧ 5 < (⟨"raw", "T4", "ORE", some "A", 10, some "B", 30, 20, 200, true⟩ :
        Market.BuySellRec).profit_margin_percent :=
  (arbitrage_buy_sell_contract.2 [("A", ⟨20, 10, "x"⟩), ("B", ⟨30, 12, "y"⟩)]
    "raw" "T4" "ORE" ⟨"raw", "T4", "ORE", some "A", 10, some "B", 30, 20, 200, true⟩
    (by rw [Market.find_best_buy_sell, if_neg (by simp)]
        norm_num [Market.buyFold, Market.sellFold])).2.2.2.2.2

/-- The cities named by a buy/sell recommendation are keys of the price
list it was computed from. -/
theorem find_best_cities_in_keys (L : List (String × Market.PriceEntry))
    (it t r : String) (rec : Market.BuySellRec)
    (h : Market.find_best_buy_sell L it t r = some rec) :
    (∀ b, rec.buy_city = some b → b ∈ L.map Prod.fst)
    ∧ (∀ sc, rec.sell_city = some sc → sc ∈ L.map Prod.fst) := by
  by_cases hL : L = []
  · rw [Market.find_best_buy_sell, if_pos hL] at h
    exact absurd h (by simp)
  · rw [Market.find_best_buy_sell, if_neg hL] at h
    have hrec := ((Option.some.injEq _ _).mp h).symm
    obtain ⟨bspec_none, bspec_some⟩ := buyFold_spec L none (by simp)
    obtain ⟨s1, s2, s3, s4⟩ := sellFold_spec L (none, 0)
    constructor
    · intro b hb
      rw [hrec] at hb
      rcases hbb : Market.buyFold L none with _ | ⟨c1, p1⟩
      · simp [hbb] at hb
      · simp [hbb] at hb
        obtain ⟨_, horig, _, _⟩ := bspec_some c1 p1 hbb
        rcases horig with ⟨d, hd, _⟩ | habs
        · rw [← hb]
          exact List.mem_map.mpr ⟨(c1, d), hd, rfl⟩
        · simp at habs
    · intro sc hsc
      rw [hrec] at hsc
      simp at hsc
      rcases s4 sc hsc with ⟨d, hd, _, _⟩ | ⟨habs, _⟩
      · exact List.mem_map.mpr ⟨(sc, d), hd, rfl⟩
      · simp at habs

/-- Keys produced by the category price-list builders come from the
filtered city list. -/
theorem priceList_keys_sub (cfg : Option Market.AlbionConfig)
    (pd : List (String × Market.CityData)) :
    (∀ y ∈ Market.rawPriceList cfg pd, y.1 ∈ Market.filteredCities cfg pd)
    ∧ (∀ y ∈ Market.prevPriceList cfg pd, y.1 ∈ Market.filteredCities cfg pd)
    ∧ (∀ y ∈ Market.refinedPriceList cfg pd, y.1 ∈ Market.filteredCities cfg pd) := by
  refine ⟨?_, ?_, ?_⟩ <;> intro y hy
  · obtain ⟨a, ha, hFa⟩ := List.mem_filterMap.mp hy
    have : y.1 = a := by
      rcases hq : ((pd.lookup a).getD {}).raw with _ | q
      · simp [hq] at hFa
      · simp [hq] at hFa
        rcases hFa with ⟨_, h2⟩
        rw [← h2]
    rw [this]
    exact ha
  · obtain ⟨a, ha, hFa⟩ := List.mem_filterMap.mp hy
    have : y.1 = a := by
      rcases hq : ((pd.lookup a).getD {}).prev_refined with _ | q
      · simp [hq] at hFa
      · simp [hq] at hFa
        rcases hFa with ⟨_, h2⟩
        rw [← h2]
    rw [this]
    exact ha
  · obtain ⟨a, ha, hFa⟩ := List.mem_filterMap.mp hy
    have : y.1 = a := by
      rcases hq : ((pd.lookup a).getD {}).refined with _ | q
      · simp [hq] at hFa
      · simp [hq] at hFa
        rcases hFa with ⟨_, h2⟩
        rw [← h2]
    rw [this]
    exact ha

/-- With a configuration present, the filtered cities are all allowed. -/
theorem filteredCities_allowed (cfg : Market.AlbionConfig)
    (pd : List (String × Market.CityData)) :
    ∀ c ∈ Market.filteredCities (some cfg) pd, c ∈ cfg.get_allowed_cities := by
  intro c hc
  unfold Market.filteredCities at hc
  simpa using (List.mem_filter.mp hc).2

/-- C5 (amended): the buy and sell cities recommended by
analyze_opportunities for each category always belong to the configured
allowed-city list, because exclusion filtering happens before the min/max
search; the profit-ordered refining-city ranking and the composite-route
production city, by contrast, are computed without any exclusion input
and can name excluded cities. -/
theorem exclusions_filter_recommendations (cfg : Market.AlbionConfig)
    (pd : List (String × Market.CityData)) (hc : Bool) (t r : String) :
    (∀ (rec : Market.BuySellRec) (b : String),
      (Market.analyze_opportunities hc (some cfg) pd t r).raw_recommendations = some rec →
      (rec.buy_city = some b ∨ rec.sell_city = some b) → b ∈ cfg.get_allowed_cities)
    ∧ (∀ (rec : Market.BuySellRec) (b : String),
      (Market.analyze_opportunities hc (some cfg) pd t r).prev_refined_recommendations = some rec →
      (rec.buy_city = some b ∨ rec.sell_city = some b) → b ∈ cfg.get_allowed_cities)
    ∧ (∀ (rec : Market.BuySellRec) (b : String),
      (Market.analyze_opportunities hc (some cfg) pd t r).refined_recommendations = some rec →
      (rec.buy_city = some b ∨ rec.sell_city = some b) → b ∈ cfg.get_allowed_cities) := by
  refine ⟨?_, ?_, ?_⟩
  all_goals intro rec b h hb
  · have hkeys := find_best_cities_in_keys (Market.rawPriceList (some cfg) pd) "raw" t r rec h
    have hmem : b ∈ (Market.rawPriceList (some cfg) pd).map Prod.fst := by
      rcases hb with hb | hb
      · exact hkeys.1 b hb
      · exact hkeys.2 b hb
    obtain ⟨y, hy, hfst⟩ := List.mem_map.mp hmem
    rw [← hfst]
    exact filteredCities_allowed cfg pd y.1 ((priceList_keys_sub (some cfg) pd).1 y hy)
  · have hkeys := find_best_cities_in_keys (Market.prevPriceList (some cfg) pd) "prev_refined" t r rec h
    have hmem : b ∈ (Market.prevPriceList (some cfg) pd).map Prod.fst := by
      rcases hb with hb | hb
      · exact hkeys.1 b hb
      · exact hkeys.2 b hb
    obtain ⟨y, hy, hfst⟩ := List.mem_map.mp hmem
    rw [← hfst]
    exact filteredCities_allowed cfg pd y.1 ((priceList_keys_sub (some cfg) pd).2.1 y hy)
  · have hkeys := find_best_cities_in_keys (Market.refinedPriceList (some cfg) pd) "refined" t r rec h
    have hmem : b ∈ (Market.refinedPriceList (some cfg) pd).map Prod.fst := by
      rcases hb with hb | hb
      · exact hkeys.1 b hb
      · exact hkeys.2 b hb
    obtain ⟨y, hy, hfst⟩ := List.mem_map.mp hmem
    rw [← hfst]
    exact filteredCities_allowed cfg pd y.1 ((priceList_keys_sub (some cfg) pd).2.2 y hy)

/-- Witness for C5 with the default configuration and one Martlock raw
quote: the recommended buy city is allowed. -/
theorem exclusions_filter_recommendations_witness :
    "Martlock" ∈ Market.AlbionConfig.get_allowed_cities {} :=
  (exclusions_filter_recommendations {} [("Martlock", { raw := some ⟨5, 3, "i"⟩ })] true "T4" "ORE").1
    ⟨"raw", "T4", "ORE", some "Martlock", 3, some "Martlock", 5, 2, 200/3, true⟩ "Martlock"
    (by rw [Market.analyze_opportunities]
        have hlist : Market.rawPriceList (some {}) [("Martlock", { raw := some ⟨5, 3, "i"⟩ })]
            = [("Martlock", ⟨5, 3, "i"⟩)] := by
          rw [Market.rawPriceList, Market.filteredCities]
          decide
        rw [hlist, Market.find_best_buy_sell, if_neg (by simp)]
        norm_num [Market.buyFold, Market.sellFold])
    (Or.inl rfl)

/-- Membership is preserved by profit-ordered insertion. -/
theorem mem_insertByProfitDesc (a x : String × Refining.CityRank)
    (l : List (String × Refining.CityRank)) :
    a ∈ Refining.insertByProfitDesc x l ↔ a = x ∨ a ∈ l := by
  induction l with
  | nil => simp [Refining.insertByProfitDesc]
  | cons y ys ih =>
    rw [Refining.insertByProfitDesc]
    split
    · simp
    · rw [List.mem_cons, ih, List.mem_cons]
      tauto

/-- Membership is preserved by the profit-ordered sort. -/
theorem mem_sortByProfitDesc (a : String × Refining.CityRank)
    (l : List (String × Refining.CityRank)) :
    a ∈ Refining.sortByProfitDesc l ↔ a ∈ l := by
  induction l with
  | nil => simp [Refining.sortByProfitDesc]
  | cons y ys ih =>
    rw [Refining.sortByProfitDesc, mem_insertByProfitDesc, ih, List.mem_cons]

/-- C5 counterexample: with Brecilien excluded by configuration, the
profit-ordered city ranking of find_best_refining_city still lists
Brecilien, since that function takes no exclusion input at all; likewise
the composite-route production city chosen by get_optimal_refining_city
can be the excluded Caerleon (its fallback for resource types with no
positive bonus anywhere). -/
theorem exclusion_ranking_counterexample :
    "Brecilien" ∉ Market.AlbionConfig.get_allowed_cities { exclude_brecilien := true }
    ∧ "Brecilien" ∈ (Refining.find_best_refining_city "T4" "ORE" 100 350 0 false true 0).map Prod.fst
    ∧ Refining.get_optimal_refining_city "GEMS" = "Caerleon"
    ∧ "Caerleon" ∉ Market.AlbionConfig.get_allowed_cities { exclude_caerleon := true } := by
  refine ⟨?_, ?_, rfl, ?_⟩
  · decide
  · rw [Refining.find_best_refining_city]
    apply List.mem_map.mpr
    have htab : ("Brecilien", [("ORE", (0:ℚ)), ("WOOD", 0), ("HIDE", 0), ("FIBER", 0),
        ("STONE", 0), ("ROCK", 0)]) ∈ Refining.local_production_bonus := by
      simp [Refining.local_production_bonus]
    exact ⟨_, (mem_sortByProfitDesc _ _).mpr (List.mem_map_of_mem _ htab), rfl⟩
  · decide

/-- The Python min over a nonempty dictionary returns an element: once the
accumulator is some, it stays some. -/
theorem minBySellKey_some_acc :
    ∀ (l : List (String × Market.PriceEntry)) (x : String × Market.PriceEntry),
    (Market.minBySellKey l (some x)).isSome = true
  | [], _ => rfl
  | y :: rest, x => by
    rw [Market.minBySellKey]
    by_cases hc : 0 < y.2.sell_price ∧ (¬ 0 < x.2.sell_price ∨ y.2.sell_price < x.2.sell_price)
    · simp only [hc, if_true]
      exact minBySellKey_some_acc rest y
    · simp only [hc, if_false]
      exact minBySellKey_some_acc rest x

/-- C7: the refining-arbitrage analysis returns the empty result when the
raw or the refined price list is empty (or the calculator or configuration
is missing), but when only the previous-tier list is empty it completes,
producing the opportunity analysis with the previous-tier cost taken as
zero. -/
theorem refining_arbitrage_edge_cases :
    (∀ (hc : Bool) (cfg : Option Market.AlbionConfig)
        (prev refined : List (String × Market.PriceEntry)) (t r : String),
      Market.analyze_refining_arbitrage hc cfg [] prev refined t r = none)
    ∧ (∀ (hc : Bool) (cfg : Option Market.AlbionConfig)
        (raw prev : List (String × Market.PriceEntry)) (t r : String),
      Market.analyze_refining_arbitrage hc cfg raw prev [] t r = none)
    ∧ (∀ (cfg : Market.AlbionConfig) (raw refined : List (String × Market.PriceEntry))
        (t r : String) (rc : String × Market.PriceEntry),
      raw ≠ [] → refined ≠ [] →
      Market.minBySellKey raw none = some rc →
      Market.analyze_refining_arbitrage true (some cfg) raw [] refined t r
        = some (Market.refArbCore cfg rc.1 rc.2.sell_price 0 refined t r)
      ∧ (Market.analyze_refining_arbitrage true (some cfg) raw [] refined t r).isSome
        = true) := by
  refine ⟨?_, ?_, ?_⟩
  · intro hc cfg prev refined t r
    rw [Market.analyze_refining_arbitrage.eq_def, if_pos (by simp)]
  · intro hc cfg raw prev t r
    rw [Market.analyze_refining_arbitrage.eq_def, if_pos (by simp)]
  · intro cfg raw refined t r rc hraw hrefined hmin
    have heq : Market.analyze_refining_arbitrage true (some cfg) raw [] refined t r
        = some (Market.refArbCore cfg rc.1 rc.2.sell_price 0 refined t r) := by
      rw [Market.analyze_refining_arbitrage.eq_def, if_neg (by simp [hraw, hrefined])]
      simp only [hmin]
      rfl
    exact ⟨heq, by rw [heq]; rfl⟩

/-- Witness for C7: one raw quote in city A and one refined quote in city
B, no previous-tier quote anywhere; the analysis completes with zero
previous-tier cost. -/
theorem refining_arbitrage_edge_cases_witness :
    Market.analyze_refining_arbitrage true (some {}) [("A", ⟨2, 3, "r"⟩)] []
        [("B", ⟨50, 40, "f"⟩)] "T4" "ORE"
      = some (Market.refArbCore {} "A" 3 0 [("B", ⟨50, 40, "f"⟩)] "T4" "ORE") :=
  (refining_arbitrage_edge_cases.2.2 {} [("A", ⟨2, 3, "r"⟩)] [("B", ⟨50, 40, "f"⟩)]
    "T4" "ORE" ("A", ⟨2, 3, "r"⟩) (by simp) (by simp) rfl).1

/-- The refining return rate is always strictly below 1. -/
theorem return_rate_lt_one (city res : String) (uf pi : Bool) :
    Refining.calculate_return_rate city res uf pi < 1 := by
  rw [return_rate_formula]
  refine (rrr_bounds ?_).2
  have := (glpb_bounds city res).1
  cases pi <;> cases uf <;> simp <;> linarith

/-- The refining return rate is nonnegative. -/
theorem return_rate_nonneg (city res : String) (uf pi : Bool) :
    0 ≤ Refining.calculate_return_rate city res uf pi := by
  rw [return_rate_formula]
  refine (rrr_bounds ?_).1
  have := (glpb_bounds city res).1
  cases pi <;> cases uf <;> simp <;> linarith

/-- The net refining profit is non-increasing in the raw price, all other
parameters fixed: raising the raw price raises the input cost faster than
the returned-resource value, since the return rate is below 1. -/
theorem net_profit_antitone (tier res city : String) (fp : ℚ) (q : ℕ) (s : ℤ)
    (prem uf : Bool) (pp : ℚ) {p1 p2 : ℚ} (h : p1 ≤ p2) :
    Refining.netProfitOf (Refining.calculate_refining_profit tier res city p2 fp q s prem uf pp)
      ≤ Refining.netProfitOf (Refining.calculate_refining_profit tier res city p1 fp q s prem uf pp) := by
  have hrr := return_rate_lt_one city res uf false
  have hq : (0:ℚ) ≤ (q : ℚ) := Nat.cast_nonneg q
  unfold Refining.netProfitOf Refining.calculate_refining_profit
  by_cases hq0 : q / ((List.lookup tier Refining.resource_requirements).getD (2, 1)).1 = 0
  · simp [hq0]
  · simp only [if_neg hq0, Option.map_some', Option.getD_some]
    -- same branch on both sides; the difference is q (rr - 1) (p2 - p1), nonpositive
    nlinarith [mul_nonneg (mul_nonneg hq (sub_nonneg.mpr h)) (sub_nonneg.mpr (le_of_lt hrr))]

/-- While fuel lasts and the interval exceeds the tolerance, the bisection
loop keeps positive profit at the low end and non-positive at the high
end, stays inside the initial interval, and stops at width at most the
tolerance whenever the width was at most the tolerance scaled by 2 to the
fuel. -/
theorem beLoop_invariant (P : ℚ → ℚ) :
    ∀ (fuel : ℕ) (lo hi : ℚ),
    hi - lo ≤ (1/100) * 2 ^ fuel → 0 < P lo → ¬ 0 < P hi →
    (Refining.beLoop P fuel lo hi).2 - (Refining.beLoop P fuel lo hi).1 ≤ 1/100
    ∧ 0 < P (Refining.beLoop P fuel lo hi).1
    ∧ ¬ 0 < P (Refining.beLoop P fuel lo hi).2
    ∧ lo ≤ (Refining.beLoop P fuel lo hi).1
    ∧ (Refining.beLoop P fuel lo hi).2 ≤ hi := by
  intro fuel
  induction fuel with
  | zero =>
    intro lo hi hw hlo hhi
    simp only [Refining.beLoop]
    exact ⟨by simpa using hw, hlo, hhi, le_rfl, le_rfl⟩
  | succ n ih =>
    intro lo hi hw hlo hhi
    simp only [Refining.beLoop]
    by_cases hcond : 1/100 < hi - lo
    · rw [if_pos hcond]
      rw [pow_succ] at hw
      by_cases hmid : 0 < P ((lo + hi) / 2)
      · rw [if_pos hmid]
        have hwidth : hi - (lo + hi) / 2 ≤ (1/100) * 2 ^ n := by linarith
        obtain ⟨a, b, c, d, e⟩ := ih ((lo + hi) / 2) hi hwidth hmid hhi
        exact ⟨a, b, c, le_trans (by linarith) d, e⟩
      · rw [if_neg hmid]
        have hwidth : (lo + hi) / 2 - lo ≤ (1/100) * 2 ^ n := by linarith
        obtain ⟨a, b, c, d, e⟩ := ih lo ((lo + hi) / 2) hwidth hlo hmid
        exact ⟨a, b, c, d, le_trans e (by linarith)⟩
    · rw [if_neg hcond]
      push_neg at hcond
      exact ⟨by simpa using hcond, hlo, hhi, le_rfl, le_rfl⟩

/-- The fuel chosen for the bisection loop is always sufficient: the
initial width is at most the tolerance scaled by 2 to the fuel. -/
theorem beFuel_sufficient (w : ℚ) : w ≤ (1/100) * 2 ^ Refining.beFuel w := by
  unfold Refining.beFuel
  rcases le_or_lt w 0 with hw | hw
  · have hpos : (0:ℚ) < (1/100) * 2 ^ ((⌈w * 100⌉).toNat + 1) := by positivity
    linarith
  · have h1 : (w * 100 : ℚ) ≤ ((⌈w * 100⌉ : ℤ) : ℚ) := Int.le_ceil _
    have h2 : ((⌈w * 100⌉ : ℤ) : ℚ) ≤ (((⌈w * 100⌉).toNat : ℤ) : ℚ) := by
      exact_mod_cast Int.self_le_toNat _
    have h3 : ((⌈w * 100⌉).toNat : ℚ) ≤ 2 ^ ((⌈w * 100⌉).toNat + 1) := by
      have hn : (⌈w * 100⌉).toNat ≤ 2 ^ ((⌈w * 100⌉).toNat + 1) :=
        le_trans (Nat.lt_two_pow _).le (Nat.pow_le_pow_right (by norm_num) (Nat.le_succ _))
      exact_mod_cast hn
    have : (w * 100 : ℚ) ≤ 2 ^ ((⌈w * 100⌉).toNat + 1) := by
      calc (w * 100 : ℚ) ≤ ((⌈w * 100⌉ : ℤ) : ℚ) := h1
        _ ≤ (((⌈w * 100⌉).toNat : ℤ) : ℚ) := h2
        _ = ((⌈w * 100⌉).toNat : ℚ) := by push_cast; ring
        _ ≤ 2 ^ ((⌈w * 100⌉).toNat + 1) := h3
    linarith

/-- C8 (amended): the break-even search is a bisection over the raw price
on the interval from 1 to ten times the refined price with interval
tolerance 0.01, returning the final lower end; whenever the net profit is
strictly positive at raw price 1 and not strictly positive at ten times
the refined price, the returned price keeps a strictly positive net
profit, lies inside the search interval, and the net profit at the
returned price plus 0.01 is already non-positive, so the sign change sits
within the tolerance above the returned price. -/
theorem break_even_search_contract (tier res city : String) (fp : ℚ) (s : ℤ)
    (prem uf : Bool) (pp : ℚ)
    (hlo : 0 < Refining.netProfitOf (Refining.calculate_refining_profit tier res city
        1 fp 100 s prem uf pp))
    (hhi : ¬ 0 < Refining.netProfitOf (Refining.calculate_refining_profit tier res city
        (fp * 10) fp 100 s prem uf pp)) :
    0 < Refining.netProfitOf (Refining.calculate_refining_profit tier res city
        (Refining.calculate_break_even_price tier res city fp s prem uf pp) fp 100 s prem uf pp)
    ∧ Refining.netProfitOf (Refining.calculate_refining_profit tier res city
        (Refining.calculate_break_even_price tier res city fp s prem uf pp + 1/100)
        fp 100 s prem uf pp) ≤ 0
    ∧ 1 ≤ Refining.calculate_break_even_price tier res city fp s prem uf pp
    ∧ Refining.calculate_break_even_price tier res city fp s prem uf pp ≤ fp * 10 := by
  have hw : fp * 10 - 1 ≤ (1/100) * 2 ^ Refining.beFuel (fp * 10 - 1) :=
    beFuel_sufficient (fp * 10 - 1)
  obtain ⟨ha, hb, hc, hd, he⟩ := beLoop_invariant
    (fun mid => Refining.netProfitOf (Refining.calculate_refining_profit tier res city
      mid fp 100 s prem uf pp))
    (Refining.beFuel (fp * 10 - 1)) 1 (fp * 10) hw hlo hhi
  have hple : (Refining.beLoop (fun mid => Refining.netProfitOf
      (Refining.calculate_refining_profit tier res city mid fp 100 s prem uf pp))
      (Refining.beFuel (fp * 10 - 1)) 1 (fp * 10)).1
      ≤ (Refining.beLoop (fun mid => Refining.netProfitOf
      (Refining.calculate_refining_profit tier res city mid fp 100 s prem uf pp))
      (Refining.beFuel (fp * 10 - 1)) 1 (fp * 10)).2 := by
    by_contra hcon
    push_neg at hcon
    have := net_profit_antitone tier res city fp 100 s prem uf pp (le_of_lt hcon)
    exact hc (lt_of_lt_of_le hb this)
  refine ⟨hb, ?_, hd, le_trans hple he⟩
  have h2 : (Refining.beLoop (fun mid => Refining.netProfitOf
      (Refining.calculate_refining_profit tier res city mid fp 100 s prem uf pp))
      (Refining.beFuel (fp * 10 - 1)) 1 (fp * 10)).2
      ≤ (Refining.beLoop (fun mid => Refining.netProfitOf
      (Refining.calculate_refining_profit tier res city mid fp 100 s prem uf pp))
      (Refining.beFuel (fp * 10 - 1)) 1 (fp * 10)).1 + 1/100 := by linarith
  have hmono := net_profit_antitone tier res city fp 100 s prem uf pp h2
  have hfin : Refining.netProfitOf (Refining.calculate_refining_profit tier res city
      ((Refining.beLoop (fun mid => Refining.netProfitOf
      (Refining.calculate_refining_profit tier res city mid fp 100 s prem uf pp))
      (Refining.beFuel (fp * 10 - 1)) 1 (fp * 10)).1 + 1/100) fp 100 s prem uf pp) ≤ 0 := by
    push_neg at hc
    exact le_trans hmono hc
  exact hfin

/-- Witness for C8: with T4 ORE in Caerleon at refined price 2 the profit
brackets the interval, and the search hence returns a price inside it. -/
theorem break_even_search_contract_witness :
    1 ≤ Refining.calculate_break_even_price "T4" "ORE" "Caerleon" 2 0 false false 0
    ∧ Refining.calculate_break_even_price "T4" "ORE" "Caerleon" 2 0 false false 0 ≤ 2 * 10 :=
  ⟨(break_even_search_contract "T4" "ORE" "Caerleon" 2 0 false false 0
      (by norm_num [Refining.netProfitOf, Refining.calculate_refining_profit,
        Refining.calculate_return_rate, Refining.base_refining_bonus, Refining.focus_bonus,
        Refining.nutrition_cost_multiplier,
        show Refining.get_local_production_bonus "Caerleon" "ORE" = 0 from rfl,
        show Refining.resource_requirements.lookup "T4" = some (2,1) from rfl,
        show Refining.tax_rates.lookup "Caerleon" = some (35/1000) from rfl,
        show Refining.item_values.lookup ("T4" ++ "_REFINED") = some 72 from rfl])
      (by norm_num [Refining.netProfitOf, Refining.calculate_refining_profit,
        Refining.calculate_return_rate, Refining.base_refining_bonus, Refining.focus_bonus,
        Refining.nutrition_cost_multiplier,
        show Refining.get_local_production_bonus "Caerleon" "ORE" = 0 from rfl,
        show Refining.resource_requirements.lookup "T4" = some (2,1) from rfl,
        show Refining.tax_rates.lookup "Caerleon" = some (35/1000) from rfl,
        show Refining.item_values.lookup ("T4" ++ "_REFINED") = some 72 from rfl])).2.2.1,
   (break_even_search_contract "T4" "ORE" "Caerleon" 2 0 false false 0
      (by norm_num [Refining.netProfitOf, Refining.calculate_refining_profit,
        Refining.calculate_return_rate, Refining.base_refining_bonus, Refining.focus_bonus,
        Refining.nutrition_cost_multiplier,
        show Refining.get_local_production_bonus "Caerleon" "ORE" = 0 from rfl,
        show Refining.resource_requirements.lookup "T4" = some (2,1) from rfl,
        show Refining.tax_rates.lookup "Caerleon" = some (35/1000) from rfl,
        show Refining.item_values.lookup ("T4" ++ "_REFINED") = some 72 from rfl])
      (by norm_num [Refining.netProfitOf, Refining.calculate_refining_profit,
        Refining.calculate_return_rate, Refining.base_refining_bonus, Refining.focus_bonus,
        Refining.nutrition_cost_multiplier,
        show Refining.get_local_production_bonus "Caerleon" "ORE" = 0 from rfl,
        show Refining.resource_requirements.lookup "T4" = some (2,1) from rfl,
        show Refining.tax_rates.lookup "Caerleon" = some (35/1000) from rfl,
        show Refining.item_values.lookup ("T4" ++ "_REFINED") = some 72 from rfl])).2.2.2⟩

/-- C8 counterexample: with refined price 0, the search interval is
degenerate and the loop returns 1 immediately, where the net profit is far
below the tolerance around zero and already negative below the returned
price, contradicting the claimed convergence to a sign change within
tolerance. -/
theorem break_even_claim_counterexample :
    Refining.calculate_break_even_price "T4" "ORE" "Caerleon" 0 0 false false 0 = 1
    ∧ Refining.netProfitOf (Refining.calculate_refining_profit "T4" "ORE" "Caerleon"
        1 0 100 0 false false 0) < -(1/100)
    ∧ Refining.netProfitOf (Refining.calculate_refining_profit "T4" "ORE" "Caerleon"
        (1 - 1/2) 0 100 0 false false 0) < 0 := by
  refine ⟨?_, ?_, ?_⟩
  · norm_num [Refining.calculate_break_even_price, Refining.beFuel, Refining.beLoop]
  · norm_num [Refining.netProfitOf, Refining.calculate_refining_profit,
      Refining.calculate_return_rate, Refining.base_refining_bonus, Refining.focus_bonus,
      Refining.nutrition_cost_multiplier,
      show Refining.get_local_production_bonus "Caerleon" "ORE" = 0 from rfl,
      show Refining.resource_requirements.lookup "T4" = some (2,1) from rfl,
      show Refining.tax_rates.lookup "Caerleon" = some (35/1000) from rfl,
      show Refining.item_values.lookup ("T4" ++ "_REFINED") = some 72 from rfl]
  · norm_num [Refining.netProfitOf, Refining.calculate_refining_profit,
      Refining.calculate_return_rate, Refining.base_refining_bonus, Refining.focus_bonus,
      Refining.nutrition_cost_multiplier,
      show Refining.get_local_production_bonus "Caerleon" "ORE" = 0 from rfl,
      show Refining.resource_requirements.lookup "T4" = some (2,1) from rfl,
      show Refining.tax_rates.lookup "Caerleon" = some (35/1000) from rfl,
      show Refining.item_values.lookup ("T4" ++ "_REFINED") = some 72 from rfl]

/-- C4 counterexample: city A posts the lowest strictly positive sell
price (5), but its zero buy price makes the availability pre-filter drop
it before the search, so the buy recommendation goes to city B at price 10
instead of A at 5; the claim as stated over the per-city quotes is
false. -/
theorem arbitrage_prefilter_counterexample :
    (Market.analyze_opportunities true none
        [("A", { raw := some ⟨0, 5, "ra"⟩ }), ("B", { raw := some ⟨20, 10, "rb"⟩ })]
        "T4" "ORE").raw_recommendations
      = some ⟨"raw", "T4", "ORE", some "B", 10, some "B", 20, 10, 100, true⟩
    ∧ (0:ℚ) < 5 ∧ (5:ℚ) < 10 := by
  refine ⟨?_, by norm_num, by norm_num⟩
  show Market.find_best_buy_sell (Market.rawPriceList none
      [("A", { raw := some ⟨0, 5, "ra"⟩ }), ("B", { raw := some ⟨20, 10, "rb"⟩ })])
      "raw" "T4" "ORE" = _
  have hlist : Market.rawPriceList none
      [("A", { raw := some ⟨0, 5, "ra"⟩ }), ("B", { raw := some ⟨20, 10, "rb"⟩ })]
      = [("B", ⟨20, 10, "rb"⟩)] := by decide
  rw [hlist, Market.find_best_buy_sell, if_neg (by simp)]
  norm_num [Market.buyFold, Market.sellFold]
